import Mathlib

/-!
Verification of the bracket resolution engine of bracket.py.

Shallow embedding conventions:
* the mutable object graph (Events linked by left/right/parent references)
  is modelled as an arena: a list of Event values addressed by event_id,
  with left/right/parent stored as event ids;
* Python dicts are association lists (first match wins; all dicts built by
  the engine have unique keys);
* Python floats are rationals (all spread arithmetic in scope is exact);
* a Python exception is an explicit error value; a function that can raise
  after mutating returns the partially mutated state together with the
  error flag, matching the in-place mutation order of the source.
-/

namespace Madness

/-- Association-list lookup, modelling Python dict access d[k] (none = KeyError). -/
def alookup (k : String) : List (String × α) → Option α
  | [] => none
  | (k', v) :: rest => if k' = k then some v else alookup k rest

/-- bracket.py Team: immutable facts about a team. -/
structure Team where
  name : String
  seed : Nat
  code_name : String
  odds_api_name : String
  original_position : Nat
deriving DecidableEq, Repr

/-- bracket.py Participant: a competitor carrying the Team it currently represents. -/
structure Participant where
  name : String
  team : Team
  is_in : Bool := true
deriving DecidableEq, Repr

/-- The status literals accepted by Event.status. -/
inductive Status
  | scheduled | in_progress | halftime | final | tbd
deriving DecidableEq, Repr

/-- bracket.py Event, arena form: left/right/parent are event ids rather than
object references.  `parent` models the private `_parent` back-pointer. -/
structure Event where
  round : Nat
  event_id : Nat
  home_participant : Option Participant := none
  away_participant : Option Participant := none
  left : Option Nat := none
  right : Option Nat := none
  spread : Option (List (String × Rat)) := none
  spread_final : Bool := false
  status : Status := .tbd
  team_to_score : List (String × Int) := []
  is_complete : Bool := false
  winning_participant : Option Participant := none
  winning_team_code : Option String := none
  estimated_start_time : Option Int := none
  parent : Option Nat := none
deriving DecidableEq, Repr

/-- One competitor entry of an ESPN score record ('winner' key is optional). -/
structure Competitor where
  score : Int
  team_code : String
  winner : Option Bool := none
deriving DecidableEq, Repr

/-- The fields of one ESPN api_event_data record that Event.update reads.
`date` is the already-parsed start time. -/
structure FeedRecord where
  status : Status
  date : Int
  completed : Bool
  competitors : Option (Competitor × Competitor) := none
deriving DecidableEq, Repr

/-- The winning_team_code computed by the loop in Event.update: the last
competitor whose 'winner' flag is present and true (Python overwrites, so
index 1 takes precedence). -/
def FeedRecord.winner_code (d : FeedRecord) : Option String :=
  match d.competitors with
  | none => none
  | some (c0, c1) =>
    if c1.winner = some true then some c1.team_code
    else if c0.winner = some true then some c0.team_code
    else none

/-- Event.update, lines 123-136: the unconditional field mutations performed
before the completion branch (status, start time, team_to_score, is_complete). -/
def Event.update_scores (e : Event) (d : FeedRecord) : Event :=
  let e1 := { e with status := d.status, estimated_start_time := some d.date }
  let e2 := match d.competitors with
    | some (c0, c1) =>
        { e1 with team_to_score := [(c0.team_code, c0.score), (c1.team_code, c1.score)] }
    | none => e1
  { e2 with is_complete := d.completed }

/-- Event.determine_winning_participant, lines 147-157.  `none` models the
Python exception raised when the spread, a participant, or a score is missing. -/
def Event.determine_winning_participant (e : Event) : Option Participant := do
  let hp ← e.home_participant
  let ap ← e.away_participant
  let sp ← e.spread
  let home_score ← alookup hp.team.code_name e.team_to_score
  let home_score_delta ← alookup hp.team.odds_api_name sp
  let away_score ← alookup ap.team.code_name e.team_to_score
  if (home_score : Rat) + home_score_delta > (away_score : Rat) then pure hp
  else if (home_score : Rat) + home_score_delta < (away_score : Rat) then pure ap
  else pure (if 0 < home_score_delta then hp else ap)

/-- Result of Event.update: the (possibly partially) mutated event, the winner
to hand to the parent (present exactly when the completion branch succeeded),
and whether a Python exception escaped mid-update. -/
structure UpdateResult where
  event : Event
  winner : Option Participant
  crashed : Bool
deriving DecidableEq, Repr

/-- Event.update, lines 122-145.  On completion the against-the-spread winner
is computed; if its team code differs from the feed's winner code, the
winner's team is reassigned to the other participant's team (the source's
`losing_team` variable: the team of the participant who lost against the
spread).  Python mutates the participant object, which is aliased by the
corresponding home/away field, so that field is rewritten here as well.
A failure inside determine_winning_participant leaves the earlier mutations
in place and reports `crashed` (the exception escapes before the
winning_participant / winning_team_code assignments and the propagation). -/
def Event.update (e : Event) (d : FeedRecord) : UpdateResult :=
  let e1 := e.update_scores d
  if d.completed then
    match e1.determine_winning_participant, e1.home_participant, e1.away_participant with
    | some wp, some hp, some ap =>
      let wpIsAway := wp = ap
      let losing_team := if wpIsAway then hp.team else ap.team
      let wp2 := if some wp.team.code_name ≠ d.winner_code then { wp with team := losing_team } else wp
      let e2 := if wpIsAway then { e1 with away_participant := some wp2 }
                else { e1 with home_participant := some wp2 }
      let e3 := { e2 with winning_participant := some wp2, winning_team_code := d.winner_code }
      { event := e3, winner := some wp2, crashed := false }
    | _, _, _ => { event := e1, winner := none, crashed := true }
  else { event := e1, winner := none, crashed := false }

/-- Event.update_from_child, lines 159-166: the parent slot written when a
child completes (home if the child is the left child, else away). -/
def Event.update_from_child (parent : Event) (child_id : Nat) (wp : Participant) : Event :=
  if parent.left = some child_id then { parent with home_participant := some wp }
  else { parent with away_participant := some wp }

/-- Event.matchup_determined, lines 112-114. -/
def Event.matchup_determined (e : Event) : Bool :=
  e.home_participant.isSome && e.away_participant.isSome

/-- tuple(sorted([a, b])) for two strings. -/
def sortPair (a b : String) : String × String :=
  if a ≤ b then (a, b) else (b, a)

/-- Event.matchup_tuple, lines 102-106 (none models the AttributeError on an
undetermined matchup; every call site guards with matchup_determined). -/
def Event.matchup_tuple (e : Event) : Option (String × String) :=
  match e.home_participant, e.away_participant with
  | some hp, some ap => some (sortPair hp.team.code_name ap.team.code_name)
  | _, _ => none

/-! ### Bracket construction (Bracket.__init__ lines 244-276, connect_bracket lines 324-352) -/

/-- The first-round seeding loop of Bracket.__init__ (lines 255-261): pair
consecutive participants; event ids are `event_number + 1` starting from
`n + 1`.  The source asserts the participant count is a power of two, so an
odd tail never occurs. -/
def first_round_events (n : Nat) : List Participant → List Event
  | p :: q :: rest =>
      { round := 1, event_id := n + 1, home_participant := some p, away_participant := some q }
        :: first_round_events (n + 1) rest
  | _ => []

/-- The inner for-loop of connect_bracket (lines 337-349): pair consecutive
events of one round.  Returns the events of the round with their `_parent`
pointers assigned, and the list of freshly created parent events (next
round), whose ids continue from `n + 1`. -/
def pair_round (n : Nat) : List Event → List Event × List Event
  | [] => ([], [])
  | [x] => ([x], [])
  | l :: r :: rest =>
      let rec_result := pair_round (n + 1) rest
      ({ l with parent := some (n + 1) } :: { r with parent := some (n + 1) } :: rec_result.1,
       { round := l.round + 1, event_id := n + 1,
         left := some l.event_id, right := some r.event_id } :: rec_result.2)

theorem pair_round_snd_length : ∀ (n : Nat) (l : List Event),
    (pair_round n l).2.length = l.length / 2
  | _, [] => rfl
  | _, [_] => by simp [pair_round]
  | n, _ :: _ :: rest => by
      simp only [pair_round, List.length_cons]
      rw [pair_round_snd_length (n + 1) rest]
      omega

/-- The while-loop of connect_bracket (lines 330-352): repeatedly pair the
events of the current round until one root remains, accumulating every
event (construction order: all of round 1, then round 2, ..., root last). -/
def connect_bracket (n : Nat) (events_in_round : List Event) : List Event :=
  if events_in_round.length ≤ 1 then events_in_round
  else
    (pair_round n events_in_round).1 ++
      connect_bracket (n + events_in_round.length / 2) (pair_round n events_in_round).2
termination_by events_in_round.length
decreasing_by
  rw [pair_round_snd_length]
  omega

/-- bracket.py Bracket, arena form.  `arena` owns every Event (construction
order); `events_to_process` is the frontier deque of event ids; the private
`_matchup_to_spread` cache and `_cache_spread` toggle are included.  The
pickle file is absent at startup in this model, so the cache starts empty. -/
structure Bracket where
  participants : List Participant
  n_rounds : Nat
  n_unique_events : Nat
  bracket_root : Nat
  arena : List Event
  events_to_process : List Nat
  calls_to_espn : Nat := 0
  calls_to_odds_api : Nat := 0
  successfully_updating : Bool := true
  last_successful_update : Option Int := none
  last_attempted_update : Option Int := none
  cache_spread : Bool := true
  matchup_to_spread : List ((String × String) × List (String × Rat)) := []
deriving DecidableEq, Repr

/-- Bracket.__init__ (lines 244-301): build the first round, connect the
bracket, number of rounds = int(log2(participant count)), frontier = every
event in construction order, root = last event. -/
def Bracket.init (participants : List Participant) (cache_spread : Bool := true) : Bracket :=
  let ordered_events := first_round_events 0 participants
  let events := connect_bracket ordered_events.length ordered_events
  { participants := participants
    n_rounds := Nat.log2 participants.length
    n_unique_events := events.length
    bracket_root := (events.map Event.event_id).getLastD 0
    arena := events
    events_to_process := events.map Event.event_id
    cache_spread := cache_spread }

/-! ### Spread resolver (set_event_spread lines 374-391, get_spread lines 394-430) -/

/-- One outcome of a bookmaker's spreads market (team name and point value). -/
structure SpreadOutcome where
  name : String
  point : Rat
deriving DecidableEq, Repr

/-- bookmaker['markets'][0]: outcome 0 is the home side, outcome 1 the away side. -/
structure SpreadMarket where
  outcome0 : SpreadOutcome
  outcome1 : SpreadOutcome
deriving DecidableEq, Repr

/-- One game record of the odds api response. -/
structure OddsGame where
  home_team : String
  away_team : String
  markets : List SpreadMarket
deriving DecidableEq, Repr

/-- statistics.mode: the most common value, the first encountered among ties
(CPython ≥ 3.8 semantics); none on an empty list. -/
def list_mode (l : List Rat) : Option Rat :=
  l.foldl (fun best x =>
    match best with
    | none => some x
    | some b => if l.count x > l.count b then some x else best) none

/-- spread_mode, lines 409-415: mode of the favorite-side points across
bookmakers; mapping first market's home-outcome name ↦ mode, away-outcome
name ↦ -mode.  Only called on a non-empty list (guarded at line 430). -/
def spread_mode (spreads : List SpreadMarket) : List (String × Rat) :=
  match spreads with
  | [] => []
  | m0 :: _ =>
    let point_spread := (list_mode (spreads.map (fun m => m.outcome0.point))).getD 0
    [(m0.outcome0.name, point_spread), (m0.outcome1.name, -point_spread)]

/-- team_match, lines 396-406: the odds game names match the event's two
odds-api team names in either orientation (call sites guarantee both
participants are present). -/
def team_match (game : OddsGame) (e : Event) : Bool :=
  match e.home_participant, e.away_participant with
  | some hp, some ap =>
      (game.home_team = hp.team.odds_api_name && game.away_team = ap.team.odds_api_name) ||
      (game.away_team = hp.team.odds_api_name && game.home_team = ap.team.odds_api_name)
  | _, _ => false

/-- Lookup in an association list keyed by a matchup tuple (dict access). -/
def assoc_find (data : List ((String × String) × α)) (t : String × String) : Option α :=
  (data.find? (fun kv => kv.1 = t)).map (·.2)

/-- The cache lookup self._matchup_to_spread[event.matchup_tuple]. -/
def Bracket.cache_lookup (b : Bracket) (t : String × String) : Option (List (String × Rat)) :=
  assoc_find b.matchup_to_spread t

/-- get_spread, lines 394-430: increment calls_to_odds_api, find the first
odds game matching the event, take the mode across its bookmakers;
none when no game matches or the match carries no bookmakers.  The odds
api response for the queried timestamp is the `odds_feed` parameter. -/
def Bracket.get_spread (b : Bracket) (e : Event) (odds_feed : List OddsGame) :
    Option (List (String × Rat)) × Bracket :=
  let b1 := { b with calls_to_odds_api := b.calls_to_odds_api + 1 }
  match odds_feed.find? (fun g => team_match g e) with
  | none => (none, b1)
  | some g => (if g.markets.isEmpty then none else some (spread_mode g.markets), b1)

/-- set_event_spread, lines 374-391: consult the cache first (when caching is
on), otherwise query the odds api; assign the result to the event; mark the
spread final for started games; write a fresh non-None spread into the
cache.  Persisting the cache to disk is I/O with no effect on engine
state. -/
def Bracket.set_event_spread (b : Bracket) (e : Event) (odds_feed : List OddsGame) :
    Bracket × Event :=
  let cached :=
    if b.cache_spread then
      match e.matchup_tuple with
      | some t => b.cache_lookup t
      | none => none
    else none
  let res :=
    match cached with
    | some s => ((some s : Option (List (String × Rat))), b)
    | none => b.get_spread e odds_feed
  let spread := res.1
  let b1 := res.2
  let e1 := { e with spread := spread }
  let e2 := if e1.status = .final || e1.status = .in_progress then
              { e1 with spread_final := true } else e1
  let b2 :=
    if b1.cache_spread then
      match e.matchup_tuple, spread with
      | some t, some s =>
          if (b1.cache_lookup t).isNone then
            { b1 with matchup_to_spread := b1.matchup_to_spread ++ [(t, s)] }
          else b1
      | _, _ => b1
    else b1
  (b2, e2)

/-! ### Score feed preprocessing (get_score_data lines 354-372) -/

/-- One element of the ESPN 'events' array: the two short-names of
event_data['shortName'] and the fields Event.update consumes. -/
structure RawEvent where
  nameA : String
  nameB : String
  payload : FeedRecord
deriving DecidableEq, Repr

/-- The dict-building loop of get_score_data (lines 363-372): key =
tuple(sorted(shortName.split(' VS '))), skipping ('TBD','TBD') records; a
duplicate key fails the assertion at line 370 (error). -/
def build_matchup_map (acc : List ((String × String) × FeedRecord)) :
    List RawEvent → Except Unit (List ((String × String) × FeedRecord))
  | [] => .ok acc
  | r :: rest =>
    let key := sortPair r.nameA r.nameB
    if key = ("TBD", "TBD") then build_matchup_map acc rest
    else if (assoc_find acc key).isSome then .error ()
    else build_matchup_map (acc ++ [(key, r.payload)]) rest

/-- get_score_data, lines 354-372, applied to the feed's raw batch. -/
def get_score_data (batch : List RawEvent) :
    Except Unit (List ((String × String) × FeedRecord)) :=
  build_matchup_map [] batch

/-! ### Arena access (object graph dereference / in-place mutation) -/

/-- Dereference the Event with the given id. -/
def get_event (arena : List Event) (eid : Nat) : Option Event :=
  arena.find? (fun e => e.event_id = eid)

/-- Commit a mutated Event: replaces the entry carrying the same event_id. -/
def set_event (arena : List Event) (e : Event) : List Event :=
  arena.map (fun x => if x.event_id = e.event_id then e else x)

/-! ### The polling scheduler (process_indefinitely lines 507-556) -/

/-- The per-event resolution block shared by the live loop (lines 520-532)
and the backfill (lines 455-467), for an event `ev0` whose matchup record is
`d`: spread population when the spread is absent, Event.update, parent
propagation (performed inside update in the source), and the in-progress
spread refresh.  `.error b` models a Python exception escaping Event.update
(all mutations up to that point committed); `.ok (b, ev)` returns the new
state and the event's final object. -/
def Bracket.write_event (b : Bracket) (ev : Event) : Bracket :=
  { b with arena := set_event b.arena ev }

/-- The parent notification performed inside Event.update (lines 144-145 and
159-166): when the update completed with a winner and the event has a
parent, the winner is written into the parent's home or away slot. -/
def Bracket.propagate (b : Bracket) (child_id : Nat) (ur : UpdateResult) : Bracket :=
  match ur.winner, ur.event.parent with
  | some wp, some pid =>
      match get_event b.arena pid with
      | some pev => b.write_event (pev.update_from_child child_id wp)
      | none => b
  | _, _ => b

/-- The closing-line refresh (lines 527-532 / 462-467): when the status just
moved to IN_PROGRESS, resolve the spread once more. -/
def Bracket.refresh_spread (b : Bracket) (old_status : Status) (ev : Event)
    (odds_feed : List OddsGame) : Bracket × Event :=
  if old_status ≠ ev.status && ev.status = .in_progress then
    b.set_event_spread ev odds_feed
  else (b, ev)

def Bracket.resolve_event (b : Bracket) (odds_feed : List OddsGame) (ev0 : Event)
    (d : FeedRecord) : Except Bracket (Bracket × Event) :=
  let sres := if ev0.spread.isNone then b.set_event_spread ev0 odds_feed else (b, ev0)
  let ur := sres.2.update d
  let b2 := sres.1.write_event ur.event
  if ur.crashed then .error b2
  else
    let b3 := b2.propagate ev0.event_id ur
    let sres2 := b3.refresh_spread sres.2.status ur.event odds_feed
    .ok (sres2.1.write_event sres2.2, sres2.2)

/-- One body execution of the for-loop of process_indefinitely (lines
514-534) for the event `eid`: dispatch the matching feed record to
resolve_event, then the is_complete check that marks the event for removal.
`.error b` models a Python exception escaping the body (caught by the
enclosing try), with every mutation up to that point committed. -/
def Bracket.process_event (b : Bracket) (odds_feed : List OddsGame)
    (data : List ((String × String) × FeedRecord)) (eid : Nat) :
    Except Bracket (Bracket × Bool) :=
  match get_event b.arena eid with
  | none => .ok (b, false)
  | some ev0 =>
    let rec_opt := match ev0.matchup_tuple with
      | some t => if ev0.matchup_determined then assoc_find data t else none
      | none => none
    match rec_opt with
    | none => .ok (b, ev0.is_complete)
    | some d =>
        match b.resolve_event odds_feed ev0 d with
        | .error b2 => .error b2
        | .ok (b4, ev2) => .ok (b4, ev2.is_complete)

/-- The for-loop of process_indefinitely over the frontier, threading
events_to_remove.  The third component is false when a Python exception
aborted the scan (the remaining events are not visited). -/
def Bracket.poll_pass (odds_feed : List OddsGame)
    (data : List ((String × String) × FeedRecord)) :
    Bracket → List Nat → List Nat → Bracket × List Nat × Bool
  | b, [], to_remove => (b, to_remove, true)
  | b, eid :: rest, to_remove =>
    match b.process_event odds_feed data eid with
    | .ok (b1, completed) =>
        Bracket.poll_pass odds_feed data b1 rest
          (if completed then to_remove ++ [eid] else to_remove)
    | .error b1 => (b1, to_remove, false)

/-- One iteration of the while-loop of process_indefinitely (lines 508-554).
`fetch = none` models the scoreboard request raising; a successful fetch
still runs get_score_data inside the try (whose assertion may fail).  On
success the espn counter, health flag and last-successful timestamp are
set; on any exception the health flag drops.  The removal loop then runs
unconditionally (it sits after the except handler) over exactly the
events_to_remove accumulated before any exception, and last_attempted is
stamped.  The 60-second sleep and stop-flag polling carry no bracket
state. -/
def Bracket.process_iteration (b : Bracket) (fetch : Option (List RawEvent))
    (odds_feed : List OddsGame) (now : Int) : Bracket :=
  let res :=
    match fetch with
    | none => ({ b with successfully_updating := false }, ([] : List Nat))
    | some batch =>
      match get_score_data batch with
      | .error _ => ({ b with successfully_updating := false }, [])
      | .ok data =>
        let pres := Bracket.poll_pass odds_feed data b b.events_to_process []
        (if pres.2.2 then
            { pres.1 with calls_to_espn := pres.1.calls_to_espn + 1,
                          successfully_updating := true,
                          last_successful_update := some now }
         else { pres.1 with successfully_updating := false },
         pres.2.1)
  let b1 := res.1
  let b2 := { b1 with events_to_process :=
                res.2.foldl (fun fr eid => fr.erase eid) b1.events_to_process }
  { b2 with last_attempted_update := some now }

/-- A sequence of live-loop iterations (the loop runs until stopped; each
element provides one iteration's external inputs). -/
def Bracket.run_polls (b : Bracket) :
    List (Option (List RawEvent) × List OddsGame × Int) → Bracket
  | [] => b
  | (fetch, odds_feed, now) :: rest => (b.process_iteration fetch odds_feed now).run_polls rest

/-! ### Backfill (pre_populate_events lines 432-476) -/

/-- The distinguishable abnormal outcomes of pre_populate_events. -/
inductive BackfillErr
  | data_fault       -- the duplicate-matchup assertion inside get_score_data
  | update_fault     -- an exception escaping Event.update
  | parent_fault     -- AttributeError: event._parent is None at line 472
  | fuel_exhausted   -- artifact of the explicit fuel bound, not source behavior
deriving DecidableEq, Repr

/-- The queue loop of pre_populate_events (lines 449-475).  Unlike the live
loop there is no try/except, so any exception propagates out; and after
processing a record the source reads event._parent.matchup_determined with
no None guard (line 472), so processing a record for the parentless root is
an AttributeError.  The queue may grow (parents are appended), so the loop
is bounded by explicit fuel. -/
def Bracket.backfill_loop (odds_feed : List OddsGame)
    (data : List ((String × String) × FeedRecord)) :
    Nat → Bracket → List Nat → Except BackfillErr Bracket
  | 0, _, _ => .error .fuel_exhausted
  | _ + 1, b, [] => .ok b
  | fuel + 1, b, eid :: queue =>
    match get_event b.arena eid with
    | none => Bracket.backfill_loop odds_feed data fuel b queue
    | some ev0 =>
      let rec_opt := match ev0.matchup_tuple with
        | some t => assoc_find data t
        | none => none
      match rec_opt with
      | none => Bracket.backfill_loop odds_feed data fuel b queue
      | some d =>
        match b.resolve_event odds_feed ev0 d with
        | .error _ => .error .update_fault
        | .ok (b4, ev2) =>
          -- line 472: event._parent.matchup_determined, no None guard
          match ev2.parent with
          | none => .error .parent_fault
          | some pid =>
            let queue1 :=
              match get_event b4.arena pid with
              | some pev => if pev.matchup_determined then queue ++ [pid] else queue
              | none => queue
            let b5 :=
              if ev2.is_complete then
                { b4 with events_to_process := b4.events_to_process.erase eid }
              else b4
            Bracket.backfill_loop odds_feed data fuel b5 queue1

/-- pre_populate_events, lines 432-476: one-shot backfill over the
tournament's starting-month batch.  No try/except guards it, so a fault
anywhere aborts the whole backfill. -/
def Bracket.pre_populate_events (b : Bracket) (batch : List RawEvent)
    (odds_feed : List OddsGame) (fuel : Nat) : Except BackfillErr Bracket :=
  match get_score_data batch with
  | .error _ => .error .data_fault
  | .ok data =>
    let determined := b.events_to_process.filter (fun eid =>
      match get_event b.arena eid with
      | some ev => ev.matchup_determined
      | none => false)
    Bracket.backfill_loop odds_feed data fuel b determined

/-- Classifier for the backfill's AttributeError outcome. -/
def is_parent_fault : Except BackfillErr Bracket → Bool
  | .error .parent_fault => true
  | _ => false

/-! ### Concrete fixtures (used by witnesses and counterexamples) -/

def teamA : Team :=
  { name := "Alpha", seed := 1, code_name := "AAA", odds_api_name := "Alpha U", original_position := 0 }

def teamB : Team :=
  { name := "Beta", seed := 2, code_name := "BBB", odds_api_name := "Beta U", original_position := 1 }

def teamC : Team :=
  { name := "Gamma", seed := 3, code_name := "CCC", odds_api_name := "Gamma U", original_position := 2 }

def teamD : Team :=
  { name := "Delta", seed := 4, code_name := "DDD", odds_api_name := "Delta U", original_position := 3 }

def pA : Participant := { name := "Ann", team := teamA }

def pB : Participant := { name := "Bob", team := teamB }

def pC : Participant := { name := "Cal", team := teamC }

def pD : Participant := { name := "Dee", team := teamD }

/-- A 4-participant bracket: events 1 (A vs B), 2 (C vs D), root 3. -/
def bracket4 : Bracket := Bracket.init [pA, pB, pC, pD] true

/-- A spreads market giving the home-name side `hpt` points. -/
def mkMarket (hname : String) (hpt : Rat) (aname : String) : SpreadMarket :=
  { outcome0 := { name := hname, point := hpt }, outcome1 := { name := aname, point := -hpt } }

/-- Odds feed carrying lines for all three matchups of bracket4. -/
def odds9 : List OddsGame :=
  [ { home_team := "Alpha U", away_team := "Beta U", markets := [mkMarket "Alpha U" (-5) "Beta U"] },
    { home_team := "Gamma U", away_team := "Delta U", markets := [mkMarket "Gamma U" (-3) "Delta U"] },
    { home_team := "Alpha U", away_team := "Gamma U", markets := [mkMarket "Alpha U" (-2) "Gamma U"] } ]

/-- Final score record: Alpha 80, Beta 60, Alpha flagged winner. -/
def recAB : RawEvent :=
  { nameA := "AAA", nameB := "BBB",
    payload := { status := .final, date := 100, completed := true,
                 competitors := some ({ score := 80, team_code := "AAA", winner := some true },
                                      { score := 60, team_code := "BBB", winner := some false }) } }

/-- Final score record: Gamma 90, Delta 50, Gamma flagged winner. -/
def recCD : RawEvent :=
  { nameA := "CCC", nameB := "DDD",
    payload := { status := .final, date := 110, completed := true,
                 competitors := some ({ score := 90, team_code := "CCC", winner := some true },
                                      { score := 50, team_code := "DDD", winner := some false }) } }

/-- Final score record for the championship: Alpha 70, Gamma 65, Alpha winner. -/
def recAC : RawEvent :=
  { nameA := "AAA", nameB := "CCC",
    payload := { status := .final, date := 200, completed := true,
                 competitors := some ({ score := 70, team_code := "AAA", winner := some true },
                                      { score := 65, team_code := "CCC", winner := some false }) } }

/-- A batch that concludes the whole 4-team tournament, root included. -/
def batch9 : List RawEvent := [recAB, recCD, recAC]

/-- In-progress record for Alpha/Beta: not completed, no winner flags. -/
def recAB_progress : RawEvent :=
  { nameA := "AAA", nameB := "BBB",
    payload := { status := .in_progress, date := 100, completed := false,
                 competitors := some ({ score := 40, team_code := "AAA" },
                                      { score := 30, team_code := "BBB" }) } }

/-- Standalone event for the reassignment claims: A (home, spread -7) vs B. -/
def eventC4 : Event :=
  { round := 1, event_id := 1, home_participant := some pA, away_participant := some pB,
    spread := some [("Alpha U", -7), ("Beta U", 7)] }

/-- eventC4 with the final scores on record: Alpha 70, Beta 65 (home spread -7). -/
def event65 : Event := { eventC4 with team_to_score := [("AAA", 70), ("BBB", 65)] }

/-- eventC4 with the final scores on record: Alpha 70, Beta 63 (a push at -7). -/
def event63 : Event := { eventC4 with team_to_score := [("AAA", 70), ("BBB", 63)] }

/-- A pick'em: spread value 0 on both sides, scores level at 70. -/
def eventC10 : Event :=
  { eventC4 with spread := some [("Alpha U", 0), ("Beta U", 0)],
                 team_to_score := [("AAA", 70), ("BBB", 70)] }

/-- Alpha wins 70-65 on the scoreboard, so Beta covers the -7 home spread:
the against-the-spread winner is the away participant while the feed's
winner flag names Alpha. -/
def recC4 : FeedRecord :=
  { status := .final, date := 50, completed := true,
    competitors := some ({ score := 70, team_code := "AAA", winner := some true },
                         { score := 65, team_code := "BBB", winner := some false }) }

/-- The crashing pass used by the C5 witness: no odds game matches, so the
completing record for event 1 faults inside Event.update. -/
def c5pass : Bracket × List Nat × Bool :=
  Bracket.poll_pass ([] : List OddsGame) [(("AAA", "BBB"), recAB.payload)] bracket4
    bracket4.events_to_process []

/-- The conjunction of structural facts claimed for a freshly constructed
bracket on 2^k participants: N-1 events; log2(N) rounds; ids 1..N-1 in
round-ascending construction order; exactly one parentless root, holding
the maximum id, in round log2(N), sitting last in events_to_process. -/
def BracketWellFormed (B : Bracket) (k : Nat) : Prop :=
  B.arena.length = 2 ^ k - 1 ∧
  B.n_unique_events = 2 ^ k - 1 ∧
  B.n_rounds = k ∧
  B.arena.map Event.event_id = List.range' 1 (2 ^ k - 1) ∧
  (B.arena.map Event.round).Pairwise (· ≤ ·) ∧
  (∀ x ∈ B.arena.dropLast, x.parent.isSome) ∧
  (∃ root, B.arena.getLast? = some root ∧ root.parent = none ∧
     root.event_id = 2 ^ k - 1 ∧ root.round = k) ∧
  B.events_to_process = B.arena.map Event.event_id ∧
  B.events_to_process.getLast? = some (2 ^ k - 1) ∧
  B.bracket_root = 2 ^ k - 1

/-! ### Theorems -/

theorem update_scores_home (e : Event) (d : FeedRecord) :
    (e.update_scores d).home_participant = e.home_participant := by
  unfold Event.update_scores
  rcases d.competitors with _ | ⟨c0, c1⟩ <;> rfl

theorem update_scores_away (e : Event) (d : FeedRecord) :
    (e.update_scores d).away_participant = e.away_participant := by
  unfold Event.update_scores
  rcases d.competitors with _ | ⟨c0, c1⟩ <;> rfl

theorem update_scores_parent (e : Event) (d : FeedRecord) :
    (e.update_scores d).parent = e.parent := by
  unfold Event.update_scores
  rcases d.competitors with _ | ⟨c0, c1⟩ <;> rfl

theorem update_scores_complete (e : Event) (d : FeedRecord) :
    (e.update_scores d).is_complete = d.completed := by
  unfold Event.update_scores
  rcases d.competitors with _ | ⟨c0, c1⟩ <;> rfl

/-- C1: with a populated spread and both scores on record,
determine_winning_participant compares `home_score + spread[home odds name]`
against the away score: strictly greater means home wins, strictly smaller
means away wins, and on exact equality (a push) the underdog wins — home
exactly when the home spread value is positive, away otherwise.  The two
spec instances (scores 70 and 65 with home spread -7 give away; scores 70
and 63 with home spread -7 are a push and give the away underdog) are the
witness. -/
theorem c1_winner_determination (e : Event) (hp ap : Participant)
    (sp : List (String × Rat)) (d : Rat) (hs as : Int)
    (hh : e.home_participant = some hp) (ha : e.away_participant = some ap)
    (hsp : e.spread = some sp)
    (hhs : alookup hp.team.code_name e.team_to_score = some hs)
    (hd : alookup hp.team.odds_api_name sp = some d)
    (has : alookup ap.team.code_name e.team_to_score = some as) :
    ((hs : Rat) + d > (as : Rat) → e.determine_winning_participant = some hp) ∧
    ((hs : Rat) + d < (as : Rat) → e.determine_winning_participant = some ap) ∧
    ((hs : Rat) + d = (as : Rat) →
      e.determine_winning_participant = some (if 0 < d then hp else ap)) := by
  unfold Event.determine_winning_participant
  rw [hh, ha, hsp]
  simp only [Option.bind_eq_bind, Option.some_bind]
  rw [hhs]
  simp only [Option.some_bind]
  rw [hd]
  simp only [Option.some_bind]
  rw [has]
  simp only [Option.some_bind]
  refine ⟨fun h => ?_, fun h => ?_, fun h => ?_⟩
  · rw [if_pos h]; rfl
  · rw [if_neg (by linarith), if_pos h]; rfl
  · rw [if_neg (by linarith), if_neg (by linarith)]; rfl

/-- C1 witness: home 70, away 65, home spread -7 gives the away
participant; home 70, away 63, home spread -7 is a push and gives the
away (underdog) participant. -/
theorem c1_winner_determination_witness :
    event65.determine_winning_participant = some pB ∧
    event63.determine_winning_participant = some pB := by
  constructor
  · exact (c1_winner_determination event65 pA pB [("Alpha U", -7), ("Beta U", 7)]
      (-7) 70 65 rfl rfl rfl rfl rfl rfl).2.1 (by norm_num)
  · have h := (c1_winner_determination event63 pA pB [("Alpha U", -7), ("Beta U", 7)]
      (-7) 70 63 rfl rfl rfl rfl rfl rfl).2.2 (by norm_num)
    rwa [if_neg (by norm_num)] at h

/-- C10: on a pick'em spread (home spread value exactly 0) with equal
scores, determine_winning_participant returns the away participant (no
underdog exists; the fixed else-branch picks away). -/
theorem c10_pickem_tie (e : Event) (hp ap : Participant)
    (sp : List (String × Rat)) (s : Int)
    (hh : e.home_participant = some hp) (ha : e.away_participant = some ap)
    (hsp : e.spread = some sp)
    (hhs : alookup hp.team.code_name e.team_to_score = some s)
    (hd : alookup hp.team.odds_api_name sp = some 0)
    (has : alookup ap.team.code_name e.team_to_score = some s) :
    e.determine_winning_participant = some ap := by
  unfold Event.determine_winning_participant
  rw [hh, ha, hsp]
  simp only [Option.bind_eq_bind, Option.some_bind]
  rw [hhs]
  simp only [Option.some_bind]
  rw [hd]
  simp only [Option.some_bind]
  rw [has]
  simp only [Option.some_bind]
  rw [if_neg (by norm_num), if_neg (by norm_num), if_neg (by norm_num)]; rfl

/-- C10 witness: Alpha 70, Beta 70, pick'em spread 0 gives the away
participant. -/
theorem c10_pickem_tie_witness :
    eventC10.determine_winning_participant = some pB :=
  c10_pickem_tie eventC10 pA pB [("Alpha U", 0), ("Beta U", 0)] 70
    rfl rfl rfl rfl rfl rfl

/-- The against-the-spread winner is always one of the two participants. -/
theorem determine_mem (e : Event) (wp hp ap : Participant)
    (hh : e.home_participant = some hp) (ha : e.away_participant = some ap)
    (hw : e.determine_winning_participant = some wp) : wp = hp ∨ wp = ap := by
  unfold Event.determine_winning_participant at hw
  rw [hh, ha] at hw
  simp only [Option.bind_eq_bind, Option.some_bind] at hw
  rcases hsp : e.spread with _ | sp <;> rw [hsp] at hw
  · simp at hw
  · simp only [Option.some_bind] at hw
    rcases h1 : alookup hp.team.code_name e.team_to_score with _ | x <;> rw [h1] at hw
    · simp at hw
    · simp only [Option.some_bind] at hw
      rcases h2 : alookup hp.team.odds_api_name sp with _ | y <;> rw [h2] at hw
      · simp at hw
      · simp only [Option.some_bind] at hw
        rcases h3 : alookup ap.team.code_name e.team_to_score with _ | z <;> rw [h3] at hw
        · simp at hw
        · simp only [Option.some_bind] at hw
          split at hw
          · exact Or.inl (by injection hw with h; exact h.symm)
          · split at hw
            · exact Or.inr (by injection hw with h; exact h.symm)
            · split at hw
              · exact Or.inl (by injection hw with h; exact h.symm)
              · exact Or.inr (by injection hw with h; exact h.symm)

/-- Closed form of the successful completion branch of Event.update. -/
theorem update_complete_eval (e : Event) (d : FeedRecord) (wp hp ap : Participant)
    (hc : d.completed = true)
    (hh : (e.update_scores d).home_participant = some hp)
    (ha : (e.update_scores d).away_participant = some ap)
    (hw : (e.update_scores d).determine_winning_participant = some wp) :
    e.update d =
      (let wp2 := if some wp.team.code_name ≠ d.winner_code
                  then { wp with team := if wp = ap then hp.team else ap.team } else wp
       let e2 := if wp = ap then { e.update_scores d with away_participant := some wp2 }
                 else { e.update_scores d with home_participant := some wp2 }
       { event := { e2 with winning_participant := some wp2, winning_team_code := d.winner_code },
         winner := some wp2, crashed := false }) := by
  simp only [Event.update, hc, hw, hh, ha, if_true]

/-- C3: when the completing update's against-the-spread winner carries a
team whose code equals the feed's straight-up winner code, nothing is
reassigned; when the codes differ (the winner covered while their team lost
outright), the winner's participant advances carrying the other
participant's team — the team that actually won on the field (the feed's
winner code, when it names either side, names that other team).  In every
case the only participant field that can change is `team`: names and is_in
are untouched, and the losing participant is untouched entirely. -/
theorem c3_team_reassignment (e : Event) (d : FeedRecord) (wp hp ap : Participant)
    (hc : d.completed = true)
    (hh : e.home_participant = some hp) (ha : e.away_participant = some ap)
    (hne : hp ≠ ap)
    (hw : (e.update_scores d).determine_winning_participant = some wp) :
    (d.winner_code = some wp.team.code_name →
       (e.update d).event.home_participant = some hp ∧
       (e.update d).event.away_participant = some ap ∧
       (e.update d).event.winning_participant = some wp) ∧
    (d.winner_code ≠ some wp.team.code_name →
       (wp = hp →
          (e.update d).event.home_participant = some { hp with team := ap.team } ∧
          (e.update d).event.away_participant = some ap ∧
          (e.update d).event.winning_participant = some { hp with team := ap.team }) ∧
       (wp = ap →
          (e.update d).event.home_participant = some hp ∧
          (e.update d).event.away_participant = some { ap with team := hp.team } ∧
          (e.update d).event.winning_participant = some { ap with team := hp.team })) ∧
    ((e.update d).event.home_participant.map Participant.name = some hp.name ∧
     (e.update d).event.away_participant.map Participant.name = some ap.name ∧
     (e.update d).event.home_participant.map Participant.is_in = some hp.is_in ∧
     (e.update d).event.away_participant.map Participant.is_in = some ap.is_in) := by
  have hh' : (e.update_scores d).home_participant = some hp := by rw [update_scores_home, hh]
  have ha' : (e.update_scores d).away_participant = some ap := by rw [update_scores_away, ha]
  have heval := update_complete_eval e d wp hp ap hc hh' ha' hw
  have hwor := determine_mem (e.update_scores d) wp hp ap hh' ha' hw
  refine ⟨?_, ?_, ?_⟩
  · intro hcoin
    have hcond : ¬ (some wp.team.code_name ≠ d.winner_code) := by simp [hcoin]
    rcases hwor with h | h <;> subst h
    · simp [heval, hcond, hne, hh', ha']
    · simp [heval, hcond, hh', ha']
  · intro hcov
    have hcond : some wp.team.code_name ≠ d.winner_code := fun h => hcov h.symm
    constructor
    · intro h
      subst h
      simp [heval, hcond, hne, hh', ha']
    · intro h
      subst h
      simp [heval, hcond, hh', ha']
  · rcases hwor with h | h <;> subst h
    · simp only [heval]
      by_cases hcond : some wp.team.code_name ≠ d.winner_code <;>
        simp [hcond, hne, hh', ha']
    · simp only [heval]
      by_cases hcond : some wp.team.code_name ≠ d.winner_code <;>
        simp [hcond, hh', ha']

/-- C3 witness: with Alpha beating Beta 80-60 at spread -7 the winner and
cover coincide and nothing is reassigned; with Alpha winning 70-65 at -7
Beta covers and advances carrying Alpha's team. -/
theorem c3_team_reassignment_witness :
    ((eventC4.update recAB.payload).event.home_participant = some pA ∧
     (eventC4.update recAB.payload).event.away_participant = some pB ∧
     (eventC4.update recAB.payload).event.winning_participant = some pA) ∧
    (eventC4.update recC4).event.away_participant = some { pB with team := teamA } := by
  constructor
  · exact (c3_team_reassignment eventC4 recAB.payload pA pA pB rfl rfl rfl
      (by decide) (by with_unfolding_all decide)).1 (by decide)
  · exact (((c3_team_reassignment eventC4 recC4 pB pA pB rfl rfl rfl
      (by decide) (by with_unfolding_all decide)).2.1 (by decide)).2 rfl).2.1

/-- C4 counterexample: Alpha (home, spread -7) beats Beta 70-65, so Beta
covers and is the against-the-spread winner while Alpha is the feed's
straight-up winner.  The update reassigns Beta's participant to Alpha's
team — the team that WON on the scoreboard (its code equals the recorded
winning_team_code) — not the literal losing-on-scoreboard team (Beta's own
team) the claim asserts. -/
theorem c4_counterexample :
    (eventC4.update recC4).event.away_participant = some { pB with team := teamA } ∧
    (eventC4.update recC4).event.winning_participant = some { pB with team := teamA } ∧
    (eventC4.update recC4).event.winning_team_code = some teamA.code_name ∧
    teamA ≠ teamB ∧ pB.team = teamB := by
  refine ⟨by with_unfolding_all decide, by with_unfolding_all decide,
    by with_unfolding_all decide, by decide, rfl⟩

/-- C4 amended: when the against-the-spread winner's attached team differs
from the feed-reported scoreboard winner, the update reassigns that
participant's team to the OTHER participant's team — the
winning-on-scoreboard team (whenever the feed's winner code names the other
side, the reassigned team's code equals it). -/
theorem c4_amended_reassignment (e : Event) (d : FeedRecord) (wp hp ap : Participant)
    (hc : d.completed = true)
    (hh : e.home_participant = some hp) (ha : e.away_participant = some ap)
    (hw : (e.update_scores d).determine_winning_participant = some wp)
    (hmis : d.winner_code ≠ some wp.team.code_name) :
    (wp = ap →
       (e.update d).event.winning_participant = some { ap with team := hp.team } ∧
       (d.winner_code = some hp.team.code_name →
         (e.update d).event.winning_participant.map (fun p => p.team.code_name) = d.winner_code)) ∧
    (wp = hp ∧ wp ≠ ap →
       (e.update d).event.winning_participant = some { hp with team := ap.team } ∧
       (d.winner_code = some ap.team.code_name →
         (e.update d).event.winning_participant.map (fun p => p.team.code_name) = d.winner_code)) := by
  have hh' : (e.update_scores d).home_participant = some hp := by rw [update_scores_home, hh]
  have ha' : (e.update_scores d).away_participant = some ap := by rw [update_scores_away, ha]
  have heval := update_complete_eval e d wp hp ap hc hh' ha' hw
  have hcond : some wp.team.code_name ≠ d.winner_code := fun h => hmis h.symm
  constructor
  · intro h
    subst h
    constructor
    · simp [heval, hcond]
    · intro hwc
      have h4 := hcond
      rw [hwc] at h4
      have hne3 : wp.team.code_name ≠ hp.team.code_name := by simpa using h4
      simp [heval, hcond, hwc, hne3]
  · rintro ⟨h, hne2⟩
    subst h
    constructor
    · simp [heval, hcond, hne2]
    · intro hwc
      have h4 := hcond
      rw [hwc] at h4
      have hne3 : wp.team.code_name ≠ ap.team.code_name := by simpa using h4
      simp [heval, hcond, hne2, hwc, hne3]

/-- C4 amended witness: the cover case of the counterexample input, through
the amended theorem. -/
theorem c4_amended_reassignment_witness :
    (eventC4.update recC4).event.winning_participant = some { pB with team := teamA } ∧
    (eventC4.update recC4).event.winning_participant.map (fun p => p.team.code_name)
      = recC4.winner_code := by
  have h := (c4_amended_reassignment eventC4 recC4 pB pA pB rfl rfl rfl
    (by with_unfolding_all decide) (by decide)).1 rfl
  exact ⟨h.1, h.2 (by decide)⟩

theorem first_round_length : ∀ (n : Nat) (ps : List Participant),
    (first_round_events n ps).length = ps.length / 2
  | _, [] => rfl
  | _, [_] => by simp [first_round_events]
  | n, _ :: _ :: rest => by
      simp only [first_round_events, List.length_cons]
      rw [first_round_length (n + 1) rest]
      omega

theorem first_round_ids : ∀ (n : Nat) (ps : List Participant),
    (first_round_events n ps).map Event.event_id = List.range' (n + 1) (ps.length / 2)
  | _, [] => rfl
  | _, [_] => by simp [first_round_events]
  | n, _ :: _ :: rest => by
      simp only [first_round_events, List.map_cons, List.length_cons]
      have h2 : (rest.length + 1 + 1) / 2 = rest.length / 2 + 1 := by omega
      rw [first_round_ids (n + 1) rest, h2, List.range'_succ]

theorem first_round_round : ∀ (n : Nat) (ps : List Participant),
    ∀ e ∈ first_round_events n ps, e.round = 1
  | _, [], _, he => by simp [first_round_events] at he
  | _, [_], _, he => by simp [first_round_events] at he
  | n, _ :: _ :: rest, e, he => by
      simp only [first_round_events, List.mem_cons] at he
      rcases he with h | h
      · simp [h]
      · exact first_round_round (n + 1) rest e h

theorem first_round_parent : ∀ (n : Nat) (ps : List Participant),
    ∀ e ∈ first_round_events n ps, e.parent = none
  | _, [], _, he => by simp [first_round_events] at he
  | _, [_], _, he => by simp [first_round_events] at he
  | n, _ :: _ :: rest, e, he => by
      simp only [first_round_events, List.mem_cons] at he
      rcases he with h | h
      · simp [h]
      · exact first_round_parent (n + 1) rest e h

theorem pair_round_fst_ids : ∀ (n : Nat) (l : List Event),
    (pair_round n l).1.map Event.event_id = l.map Event.event_id
  | _, [] => rfl
  | _, [_] => rfl
  | n, l :: r :: rest => by
      simp only [pair_round, List.map_cons]
      rw [pair_round_fst_ids (n + 1) rest]

theorem pair_round_snd_ids : ∀ (n : Nat) (l : List Event),
    (pair_round n l).2.map Event.event_id = List.range' (n + 1) (l.length / 2)
  | _, [] => rfl
  | _, [_] => by simp [pair_round]
  | n, _ :: _ :: rest => by
      simp only [pair_round, List.map_cons, List.length_cons]
      have h2 : (rest.length + 1 + 1) / 2 = rest.length / 2 + 1 := by omega
      rw [pair_round_snd_ids (n + 1) rest, h2, List.range'_succ]

theorem pair_round_fst_round {k : Nat} : ∀ (n : Nat) (l : List Event),
    (∀ x ∈ l, x.round = k) → ∀ x ∈ (pair_round n l).1, x.round = k
  | _, [], _, _, hx => by simp [pair_round] at hx
  | _, [a], h, x, hx => by
      simp only [pair_round, List.mem_singleton] at hx
      exact hx ▸ h a (by simp)
  | n, a :: b :: rest, h, x, hx => by
      simp only [pair_round, List.mem_cons] at hx
      rcases hx with hx | hx | hx
      · subst hx; exact h a (by simp)
      · subst hx; exact h b (by simp)
      · exact pair_round_fst_round (n + 1) rest (fun y hy => h y (by simp [hy])) x hx

theorem pair_round_snd_round {k : Nat} : ∀ (n : Nat) (l : List Event),
    (∀ x ∈ l, x.round = k) → ∀ x ∈ (pair_round n l).2, x.round = k + 1
  | _, [], _, _, hx => by simp [pair_round] at hx
  | _, [_], _, _, hx => by simp [pair_round] at hx
  | n, a :: b :: rest, h, x, hx => by
      simp only [pair_round, List.mem_cons] at hx
      rcases hx with hx | hx
      · subst hx; simp [h a (by simp)]
      · exact pair_round_snd_round (n + 1) rest (fun y hy => h y (by simp [hy])) x hx

theorem pair_round_fst_parent : ∀ (n : Nat) (l : List Event), l.length % 2 = 0 →
    ∀ x ∈ (pair_round n l).1, x.parent.isSome
  | _, [], _, _, hx => by simp [pair_round] at hx
  | _, [_], h, _, _ => by simp at h
  | n, a :: b :: rest, h, x, hx => by
      simp only [pair_round, List.mem_cons] at hx
      rcases hx with hx | hx | hx
      · subst hx; rfl
      · subst hx; rfl
      · exact pair_round_fst_parent (n + 1) rest (by simp only [List.length_cons] at h; omega) x hx

theorem pair_round_snd_parent : ∀ (n : Nat) (l : List Event),
    ∀ x ∈ (pair_round n l).2, x.parent = none
  | _, [], _, hx => by simp [pair_round] at hx
  | _, [_], _, hx => by simp [pair_round] at hx
  | n, _ :: _ :: rest, x, hx => by
      simp only [pair_round, List.mem_cons] at hx
      rcases hx with hx | hx
      · subst hx; rfl
      · exact pair_round_snd_parent (n + 1) rest x hx

theorem connect_bracket_ids : ∀ (m n : Nat) (l : List Event), l.length = 2 ^ m →
    (connect_bracket n l).map Event.event_id
      = l.map Event.event_id ++ List.range' (n + 1) (2 ^ m - 1)
  | 0, n, l, h => by
      rw [connect_bracket]
      simp [h]
  | m + 1, n, l, h => by
      have hpos : 0 < 2 ^ m := Nat.pos_pow_of_pos m (by omega)
      have hlen2 : ¬ l.length ≤ 1 := by
        rw [h, pow_succ]; omega
      have hhalf : l.length / 2 = 2 ^ m := by rw [h, pow_succ]; omega
      have hrec : (pair_round n l).2.length = 2 ^ m := by
        rw [pair_round_snd_length, hhalf]
      rw [connect_bracket, if_neg hlen2]
      rw [List.map_append, pair_round_fst_ids,
        connect_bracket_ids m (n + l.length / 2) _ hrec, pair_round_snd_ids, hhalf]
      have h1 : n + 2 ^ m + 1 = (n + 1) + 2 ^ m := by omega
      rw [h1, List.range'_append_1]
      have h2 : 2 ^ m - 1 + 2 ^ m = 2 ^ (m + 1) - 1 := by rw [pow_succ]; omega
      rw [h2]

theorem connect_bracket_length (m n : Nat) (l : List Event) (h : l.length = 2 ^ m) :
    (connect_bracket n l).length = 2 ^ (m + 1) - 1 := by
  have hpos : 0 < 2 ^ m := Nat.pos_pow_of_pos m (by omega)
  have := congrArg List.length (connect_bracket_ids m n l h)
  simp only [List.length_map, List.length_append, List.length_range'] at this
  rw [this, h, pow_succ]; omega

theorem connect_bracket_parents : ∀ (m n : Nat) (l : List Event), l.length = 2 ^ m →
    (∀ x ∈ l, x.parent = none) →
    (∀ x ∈ (connect_bracket n l).dropLast, x.parent.isSome) ∧
      ∃ root, (connect_bracket n l).getLast? = some root ∧ root.parent = none
  | 0, n, l, h, hp => by
      rw [pow_zero] at h
      obtain ⟨a, rfl⟩ := List.length_eq_one.mp h
      rw [connect_bracket]
      refine ⟨by simp, a, by simp, hp a (by simp)⟩
  | m + 1, n, l, h, hp => by
      have hpos : 0 < 2 ^ m := Nat.pos_pow_of_pos m (by omega)
      have hlen2 : ¬ l.length ≤ 1 := by rw [h, pow_succ]; omega
      have heven : l.length % 2 = 0 := by rw [h, pow_succ]; omega
      have hrec : (pair_round n l).2.length = 2 ^ m := by
        rw [pair_round_snd_length, h, pow_succ]; omega
      obtain ⟨ih1, root, ihLast, ihNone⟩ :=
        connect_bracket_parents m (n + l.length / 2) (pair_round n l).2 hrec
          (pair_round_snd_parent n l)
      have hne : connect_bracket (n + l.length / 2) (pair_round n l).2 ≠ [] := by
        intro hnil
        rw [hnil] at ihLast
        simp at ihLast
      rw [connect_bracket, if_neg hlen2]
      constructor
      · intro x hx
        rw [List.dropLast_append_of_ne_nil _ hne] at hx
        rcases List.mem_append.mp hx with hx | hx
        · exact pair_round_fst_parent n l heven x hx
        · exact ih1 x (by exact hx)
      · refine ⟨root, ?_, ihNone⟩
        rw [List.getLast?_append, ihLast]
        rfl

theorem connect_bracket_root_round : ∀ (m n k : Nat) (l : List Event), l.length = 2 ^ m →
    (∀ x ∈ l, x.round = k) →
    ∃ root, (connect_bracket n l).getLast? = some root ∧ root.round = k + m
  | 0, n, k, l, h, hr => by
      rw [pow_zero] at h
      obtain ⟨a, rfl⟩ := List.length_eq_one.mp h
      rw [connect_bracket]
      exact ⟨a, by simp, by simpa using hr a (by simp)⟩
  | m + 1, n, k, l, h, hr => by
      have hpos : 0 < 2 ^ m := Nat.pos_pow_of_pos m (by omega)
      have hlen2 : ¬ l.length ≤ 1 := by rw [h, pow_succ]; omega
      have hrec : (pair_round n l).2.length = 2 ^ m := by
        rw [pair_round_snd_length, h, pow_succ]; omega
      obtain ⟨root, ihLast, ihRound⟩ :=
        connect_bracket_root_round m (n + l.length / 2) (k + 1) (pair_round n l).2 hrec
          (pair_round_snd_round n l hr)
      rw [connect_bracket, if_neg hlen2]
      refine ⟨root, ?_, by omega⟩
      rw [List.getLast?_append, ihLast]
      rfl

theorem connect_bracket_round_ge : ∀ (m n k : Nat) (l : List Event), l.length = 2 ^ m →
    (∀ x ∈ l, x.round = k) → ∀ x ∈ connect_bracket n l, k ≤ x.round
  | 0, n, k, l, h, hr, x, hx => by
      rw [connect_bracket] at hx
      rw [h] at hx
      simp only [pow_zero] at hx
      rw [if_pos (by omega)] at hx
      exact (hr x hx).ge
  | m + 1, n, k, l, h, hr, x, hx => by
      have hpos : 0 < 2 ^ m := Nat.pos_pow_of_pos m (by omega)
      have hlen2 : ¬ l.length ≤ 1 := by rw [h, pow_succ]; omega
      have hrec : (pair_round n l).2.length = 2 ^ m := by
        rw [pair_round_snd_length, h, pow_succ]; omega
      rw [connect_bracket, if_neg hlen2] at hx
      rcases List.mem_append.mp hx with hx | hx
      · exact (pair_round_fst_round n l hr x hx).ge
      · have := connect_bracket_round_ge m (n + l.length / 2) (k + 1) (pair_round n l).2 hrec
          (pair_round_snd_round n l hr) x hx
        omega

theorem pairwise_le_of_const {l : List Nat} {k : Nat} (h : ∀ x ∈ l, x = k) :
    l.Pairwise (· ≤ ·) := by
  induction l with
  | nil => exact List.Pairwise.nil
  | cons a t ih =>
      refine List.Pairwise.cons (fun b hb => ?_) (ih fun x hx => h x (by simp [hx]))
      rw [h a (by simp), h b (by simp [hb])]

theorem connect_bracket_sorted : ∀ (m n k : Nat) (l : List Event), l.length = 2 ^ m →
    (∀ x ∈ l, x.round = k) →
    ((connect_bracket n l).map Event.round).Pairwise (· ≤ ·)
  | 0, n, k, l, h, hr => by
      rw [pow_zero] at h
      obtain ⟨a, rfl⟩ := List.length_eq_one.mp h
      rw [connect_bracket]
      simp
  | m + 1, n, k, l, h, hr => by
      have hpos : 0 < 2 ^ m := Nat.pos_pow_of_pos m (by omega)
      have hlen2 : ¬ l.length ≤ 1 := by rw [h, pow_succ]; omega
      have hrec : (pair_round n l).2.length = 2 ^ m := by
        rw [pair_round_snd_length, h, pow_succ]; omega
      rw [connect_bracket, if_neg hlen2, List.map_append, List.pairwise_append]
      refine ⟨pairwise_le_of_const (k := k) ?_,
        connect_bracket_sorted m (n + l.length / 2) (k + 1) (pair_round n l).2 hrec
          (pair_round_snd_round n l hr), ?_⟩
      · intro r hrm
        obtain ⟨x, hx, rfl⟩ := List.mem_map.mp hrm
        exact pair_round_fst_round n l hr x hx
      · intro a ha b hb
        obtain ⟨x, hx, rfl⟩ := List.mem_map.mp ha
        obtain ⟨y, hy, rfl⟩ := List.mem_map.mp hb
        rw [pair_round_fst_round n l hr x hx]
        have := connect_bracket_round_ge m (n + l.length / 2) (k + 1) (pair_round n l).2 hrec
          (pair_round_snd_round n l hr) y hy
        omega


/-- C2: constructing a bracket from 2^k participants (k at least 2) yields
2^k - 1 Events, log2(N) rounds, ids 1..N-1 assigned sequentially in
round-ascending construction order, and exactly one parentless root that
holds the maximum id, sits in round k, and comes last in the
events-to-process collection. -/
theorem c2_bracket_construction (ps : List Participant) (k : Nat)
    (hk : 2 ≤ k) (hlen : ps.length = 2 ^ k) :
    BracketWellFormed (Bracket.init ps true) k := by
  obtain ⟨m, rfl⟩ : ∃ m, k = m + 1 := ⟨k - 1, by omega⟩
  have hpos : 0 < 2 ^ m := Nat.pos_pow_of_pos m (by omega)
  have hposk : 0 < 2 ^ (m + 1) := Nat.pos_pow_of_pos (m + 1) (by omega)
  have hdiv : ps.length / 2 = 2 ^ m := by rw [hlen, pow_succ]; omega
  have hF : (first_round_events 0 ps).length = 2 ^ m := by
    rw [first_round_length, hdiv]
  have hFids : (first_round_events 0 ps).map Event.event_id = List.range' 1 (2 ^ m) := by
    rw [first_round_ids, hdiv]
  have harena : (Bracket.init ps true).arena
      = connect_bracket (first_round_events 0 ps).length (first_round_events 0 ps) := rfl
  have hids : (Bracket.init ps true).arena.map Event.event_id
      = List.range' 1 (2 ^ (m + 1) - 1) := by
    rw [harena, connect_bracket_ids m _ _ hF, hFids, hF]
    have h1 : 2 ^ m + 1 = 1 + 2 ^ m := by omega
    rw [h1, List.range'_append_1]
    have h2 : 2 ^ m - 1 + 2 ^ m = 2 ^ (m + 1) - 1 := by rw [pow_succ]; omega
    rw [h2]
  have hlenA : (Bracket.init ps true).arena.length = 2 ^ (m + 1) - 1 := by
    have := congrArg List.length hids
    simpa using this
  have hroot := connect_bracket_parents m (first_round_events 0 ps).length
    (first_round_events 0 ps) hF (first_round_parent 0 ps)
  have hround := connect_bracket_root_round m (first_round_events 0 ps).length 1
    (first_round_events 0 ps) hF (first_round_round 0 ps)
  obtain ⟨hdrop, root, hlast, hnoneP⟩ := hroot
  obtain ⟨root2, hlast2, hround2⟩ := hround
  have hrooteq : root2 = root := by
    rw [hlast] at hlast2
    exact (Option.some_injective _ hlast2).symm
  subst hrooteq
  have hlastA : (Bracket.init ps true).arena.getLast? = some root2 := by
    rw [harena]; exact hlast
  have hlastid : root2.event_id = 2 ^ (m + 1) - 1 := by
    have h3 : ((Bracket.init ps true).arena.map Event.event_id).getLast?
        = some (2 ^ (m + 1) - 1) := by
      rw [hids, List.getLast?_range']
      rw [if_neg (by omega)]
      congr 1
      omega
    rw [List.getLast?_map, hlastA] at h3
    simpa using h3
  refine ⟨hlenA, hlenA, ?_, hids, ?_, ?_, ⟨root2, hlastA, hnoneP, hlastid, by omega⟩, rfl, ?_, ?_⟩
  · show Nat.log2 ps.length = m + 1
    rw [hlen, Nat.log2_eq_log_two, Nat.log_pow (by omega)]
  · rw [harena]
    exact connect_bracket_sorted m _ 1 (first_round_events 0 ps) hF (first_round_round 0 ps)
  · rw [harena]
    exact hdrop
  · show ((Bracket.init ps true).arena.map Event.event_id).getLast? = some (2 ^ (m + 1) - 1)
    rw [List.getLast?_map, hlastA]
    simpa using hlastid
  · show ((Bracket.init ps true).arena.map Event.event_id).getLastD 0 = 2 ^ (m + 1) - 1
    rw [List.getLastD_eq_getLast?, List.getLast?_map, hlastA]
    simpa using hlastid

/-- C2 witness: the construction facts hold at the concrete 4-participant
bracket. -/
theorem c2_bracket_construction_witness :
    (2 ≤ 2 ∧ ([pA, pB, pC, pD] : List Participant).length = 2 ^ 2) ∧
    BracketWellFormed (Bracket.init [pA, pB, pC, pD] true) 2 :=
  ⟨⟨by omega, by decide⟩,
   c2_bracket_construction [pA, pB, pC, pD] 2 (by omega) (by decide)⟩


theorem assoc_find_append_self {α : Type} (l : List ((String × String) × α))
    (t : String × String) (v : α) (h : assoc_find l t = none) :
    assoc_find (l ++ [(t, v)]) t = some v := by
  induction l with
  | nil => simp [assoc_find]
  | cons kv rest ih =>
      unfold assoc_find at h ⊢
      by_cases hk : kv.1 = t
      · simp [List.find?_cons, hk] at h
      · simp only [List.cons_append, List.find?_cons] at h ⊢
        rw [show (decide (kv.1 = t)) = false by simpa using hk] at h ⊢
        exact ih h

/-- get_spread always returns the bracket with the odds counter bumped. -/
theorem get_spread_snd (b : Bracket) (e : Event) (feed : List OddsGame) :
    (b.get_spread e feed).2 = { b with calls_to_odds_api := b.calls_to_odds_api + 1 } := by
  unfold Bracket.get_spread
  rcases feed.find? (fun g => team_match g e) with _ | g <;> rfl

/-- On a cache hit, set_event_spread returns the cached mapping unchanged,
issues no odds query, and leaves the cache untouched. -/
theorem set_event_spread_hit (b : Bracket) (e : Event) (feed : List OddsGame)
    (t : String × String) (s : List (String × Rat))
    (hc : b.cache_spread = true) (ht : e.matchup_tuple = some t)
    (hcache : b.cache_lookup t = some s) :
    (b.set_event_spread e feed).2.spread = some s ∧
    (b.set_event_spread e feed).1.calls_to_odds_api = b.calls_to_odds_api ∧
    (b.set_event_spread e feed).1.matchup_to_spread = b.matchup_to_spread ∧
    (b.set_event_spread e feed).1.cache_spread = true := by
  unfold Bracket.set_event_spread
  simp only [hc, ht, if_true, hcache]
  refine ⟨?_, ?_, ?_, ?_⟩
  · rw [apply_ite Event.spread]
    simp
  · simp [hcache]
  · simp [hcache]
  · simp [hcache, hc]

/-- On a cache miss with caching on, a non-None resolution is written to the
cache under the matchup pair, and a None resolution leaves the cache
untouched. -/
theorem set_event_spread_miss (b : Bracket) (e : Event) (feed : List OddsGame)
    (t : String × String)
    (hc : b.cache_spread = true) (ht : e.matchup_tuple = some t)
    (hm : b.cache_lookup t = none) :
    (∀ s, (b.set_event_spread e feed).2.spread = some s →
        (b.set_event_spread e feed).1.cache_lookup t = some s) ∧
    ((b.set_event_spread e feed).2.spread = none →
        (b.set_event_spread e feed).1.matchup_to_spread = b.matchup_to_spread) ∧
    (b.set_event_spread e feed).1.cache_spread = true := by
  have hsnd := get_spread_snd b e feed
  unfold Bracket.set_event_spread
  simp only [hc, ht, if_true, hm]
  rcases hg : (b.get_spread e feed).1 with _ | s2 <;>
    simp only [hg, hsnd]
  · refine ⟨?_, ?_, ?_⟩
    · intro s hs
      rw [apply_ite Event.spread] at hs
      simp at hs
    · intro _
      simp [Bracket.cache_lookup]
    · simp [hc]
  · have hl : Bracket.cache_lookup { b with calls_to_odds_api := b.calls_to_odds_api + 1 } t
        = b.cache_lookup t := rfl
    refine ⟨?_, ?_, ?_⟩
    · intro s hs
      have hs2 : s2 = s := by
        rw [apply_ite Event.spread] at hs
        simp at hs
        exact hs
      subst hs2
      unfold Bracket.cache_lookup at hm ⊢
      rw [hm]
      simp only [Option.isNone_none, if_true, hc, eq_self_iff_true]
      exact assoc_find_append_self _ t s2 hm
    · intro hs
      rw [apply_ite Event.spread] at hs
      simp at hs
    · simp only [hc, eq_self_iff_true, if_true]
      rw [apply_ite Bracket.cache_spread]
      exact ite_self true

theorem find?_set_event_ne (arena : List Event) (ev : Event) (eid : Nat)
    (hne : ev.event_id ≠ eid) :
    get_event (set_event arena ev) eid = get_event arena eid := by
  unfold get_event set_event
  induction arena with
  | nil => rfl
  | cons x rest ih =>
      simp only [List.map_cons, List.find?_cons]
      by_cases hx : x.event_id = ev.event_id
      · rw [if_pos hx]
        have h1 : (decide (ev.event_id = eid)) = false := by simpa using hne
        have h2 : (decide (x.event_id = eid)) = false := by
          simp only [decide_eq_false_iff_not]
          intro h
          exact hne (hx ▸ h)
        rw [h1, h2]
        exact ih
      · rw [if_neg hx]
        rcases h2 : (decide (x.event_id = eid)) with _ | _
        · exact ih
        · rfl

theorem get_set_event_self (arena : List Event) (ev : Event) (eid : Nat)
    (hsome : (get_event arena eid).isSome) (hid : ev.event_id = eid) :
    get_event (set_event arena ev) eid = some ev := by
  unfold get_event set_event at *
  induction arena with
  | nil => simp at hsome
  | cons x rest ih =>
      simp only [List.map_cons, List.find?_cons] at *
      by_cases hx : x.event_id = eid
      · rw [if_pos (by rw [hx, hid])]
        rw [show (decide (ev.event_id = eid)) = true by simpa using hid]
      · rw [show (decide (x.event_id = eid)) = false by simpa using hx] at hsome
        by_cases hx2 : x.event_id = ev.event_id
        · exfalso
          exact hx (hx2.trans hid)
        · rw [if_neg hx2]
          rw [show (decide (x.event_id = eid)) = false by simpa using hx]
          exact ih hsome

theorem get_set_event_isSome (arena : List Event) (ev : Event) (k : Nat) :
    (get_event (set_event arena ev) k).isSome = (get_event arena k).isSome := by
  by_cases hk : ev.event_id = k
  · subst hk
    by_cases hs : (get_event arena ev.event_id).isSome
    · rw [get_set_event_self arena ev ev.event_id hs rfl, hs]
      rfl
    · unfold get_event set_event at *
      induction arena with
      | nil => rfl
      | cons x rest ih =>
          simp only [List.map_cons, List.find?_cons] at *
          by_cases hx : x.event_id = ev.event_id
          · exfalso
            apply hs
            rw [show (decide (x.event_id = ev.event_id)) = true by simpa using hx]
            rfl
          · rw [if_neg hx]
            rw [show (decide (x.event_id = ev.event_id)) = false by simpa using hx] at *
            exact ih hs
  · rw [find?_set_event_ne arena ev k hk]

theorem update_from_child_is_complete (p : Event) (cid : Nat) (wp : Participant) :
    (p.update_from_child cid wp).is_complete = p.is_complete := by
  unfold Event.update_from_child
  split <;> rfl

theorem update_from_child_event_id (p : Event) (cid : Nat) (wp : Participant) :
    (p.update_from_child cid wp).event_id = p.event_id := by
  unfold Event.update_from_child
  split <;> rfl

theorem update_scores_event_id (e : Event) (d : FeedRecord) :
    (e.update_scores d).event_id = e.event_id := by
  unfold Event.update_scores
  rcases d.competitors with _ | ⟨c0, c1⟩ <;> rfl

theorem update_event_id (e : Event) (d : FeedRecord) :
    (e.update d).event.event_id = e.event_id := by
  unfold Event.update
  simp only []
  split
  · split
    · rw [apply_ite Event.event_id]
      exact (ite_self (e.update_scores d).event_id).trans (update_scores_event_id e d)
    · exact update_scores_event_id e d
  · exact update_scores_event_id e d

theorem set_event_spread_snd_event_id (b : Bracket) (e : Event) (feed : List OddsGame) :
    (b.set_event_spread e feed).2.event_id = e.event_id := by
  unfold Bracket.set_event_spread
  simp only []
  rw [apply_ite Event.event_id]
  exact ite_self e.event_id

/-- set_event_spread only touches the odds counter and the spread cache on
the bracket side. -/
theorem set_event_spread_fst (b : Bracket) (e : Event) (feed : List OddsGame) :
    ∃ n cache, (b.set_event_spread e feed).1
      = { b with calls_to_odds_api := n, matchup_to_spread := cache } := by
  unfold Bracket.set_event_spread
  simp only []
  repeat' split
  all_goals first
    | exact ⟨_, _, rfl⟩
    | (rw [get_spread_snd]; exact ⟨_, _, rfl⟩)


theorem get_event_id (arena : List Event) (k : Nat) (ev : Event)
    (h : get_event arena k = some ev) : ev.event_id = k := by
  unfold get_event at h
  have := List.find?_some h
  simpa using this

/-- resolve_event only touches the odds counter, the spread cache and the
arena; arena writes target the event itself and (through update_from_child,
which preserves is_complete) its parent, so the is_complete of every other
entry is untouched; and on success the event's own entry holds the returned
event object. -/
theorem write_event_arena (b : Bracket) (ev : Event) :
    b.write_event ev = { b with arena := set_event b.arena ev } := rfl

theorem propagate_effects (b : Bracket) (cid : Nat) (ur : UpdateResult) :
    ∃ arena2, b.propagate cid ur = { b with arena := arena2 } ∧
      (∀ k, (get_event arena2 k).map Event.is_complete
          = (get_event b.arena k).map Event.is_complete) ∧
      (∀ k, (get_event arena2 k).isSome = (get_event b.arena k).isSome) := by
  unfold Bracket.propagate
  rcases ur.winner with _ | wp <;> rcases ur.event.parent with _ | pid <;>
    simp only []
  · exact ⟨b.arena, rfl, fun k => rfl, fun k => rfl⟩
  · exact ⟨b.arena, rfl, fun k => rfl, fun k => rfl⟩
  · exact ⟨b.arena, rfl, fun k => rfl, fun k => rfl⟩
  · rcases hpev : get_event b.arena pid with _ | pev <;> simp only []
    · exact ⟨b.arena, rfl, fun k => rfl, fun k => rfl⟩
    · have hpid : pev.event_id = pid := get_event_id _ _ _ hpev
      refine ⟨_, rfl, ?_, ?_⟩
      · intro k
        by_cases hkp : k = pid
        · subst hkp
          rw [get_set_event_self _ _ _ (by rw [hpev]; rfl)
              (by rw [update_from_child_event_id, hpid]), hpev]
          simp [update_from_child_is_complete]
        · rw [find?_set_event_ne _ _ _
            (by rw [update_from_child_event_id, hpid]; exact fun h => hkp h.symm)]
      · intro k
        exact get_set_event_isSome b.arena _ k

theorem refresh_spread_effects (b : Bracket) (old_status : Status) (ev : Event)
    (odds_feed : List OddsGame) :
    (∃ n c, (b.refresh_spread old_status ev odds_feed).1
        = { b with calls_to_odds_api := n, matchup_to_spread := c }) ∧
    (b.refresh_spread old_status ev odds_feed).2.event_id = ev.event_id := by
  unfold Bracket.refresh_spread
  split
  · exact ⟨set_event_spread_fst b ev odds_feed, set_event_spread_snd_event_id b ev odds_feed⟩
  · exact ⟨⟨b.calls_to_odds_api, b.matchup_to_spread, rfl⟩, rfl⟩

/-- resolve_event only touches the odds counter, the spread cache and the
arena; arena writes target the event itself and (through update_from_child,
which preserves is_complete) its parent, so the is_complete of every other
entry is untouched; on success the event's own entry holds the returned
event object. -/
theorem resolve_event_effects (b : Bracket) (odds_feed : List OddsGame) (ev0 : Event)
    (d : FeedRecord) :
    ∀ r, b.resolve_event odds_feed ev0 d = r →
      ∃ n cache arena2,
        (match r with | .ok (b1, _) => b1 | .error b1 => b1)
          = { b with calls_to_odds_api := n, matchup_to_spread := cache, arena := arena2 } ∧
        (∀ k, k ≠ ev0.event_id →
          (get_event arena2 k).map Event.is_complete
            = (get_event b.arena k).map Event.is_complete) ∧
        ((get_event b.arena ev0.event_id).isSome = true →
          match r with
          | .ok (_, ev2) => get_event arena2 ev0.event_id = some ev2 ∧ ev2.event_id = ev0.event_id
          | .error _ => True) := by
  intro r hr
  unfold Bracket.resolve_event at hr
  simp only [] at hr
  generalize hS : (if ev0.spread.isNone = true then b.set_event_spread ev0 odds_feed
      else (b, ev0)) = S at hr
  have hSfst : ∃ n1 c1, S.1 = { b with calls_to_odds_api := n1, matchup_to_spread := c1 } := by
    rw [← hS]
    by_cases hsp : ev0.spread.isNone = true
    · rw [if_pos hsp]
      exact set_event_spread_fst b ev0 odds_feed
    · rw [if_neg hsp]
      exact ⟨b.calls_to_odds_api, b.matchup_to_spread, rfl⟩
  have hSid : S.2.event_id = ev0.event_id := by
    rw [← hS]
    by_cases hsp : ev0.spread.isNone = true
    · rw [if_pos hsp]
      exact set_event_spread_snd_event_id b ev0 odds_feed
    · rw [if_neg hsp]
  obtain ⟨n1, c1, hS1⟩ := hSfst
  have hSarena : S.1.arena = b.arena := by rw [hS1]
  generalize hU : S.2.update d = U at hr
  have hUid : U.event.event_id = ev0.event_id := by
    rw [← hU, update_event_id, hSid]
  have hAne : ∀ k, k ≠ ev0.event_id →
      get_event (set_event S.1.arena U.event) k = get_event b.arena k := by
    intro k hk
    exact (find?_set_event_ne _ _ _ (by rw [hUid]; exact hk.symm)).trans (by rw [hSarena])
  have hAsome : ∀ k, (get_event (set_event S.1.arena U.event) k).isSome
      = (get_event b.arena k).isSome := by
    intro k
    rw [get_set_event_isSome, hSarena]
  by_cases hcr : U.crashed = true
  · rw [if_pos hcr] at hr
    subst hr
    refine ⟨n1, c1, set_event S.1.arena U.event, ?_, ?_, fun _ => trivial⟩
    · show S.1.write_event U.event = _
      rw [write_event_arena, hS1]
    · intro k hk
      exact congrArg (Option.map Event.is_complete) (hAne k hk)
  · rw [if_neg hcr] at hr
    obtain ⟨arena3, hprop, hpropc, hprops⟩ :=
      propagate_effects (S.1.write_event U.event) ev0.event_id U
    rw [hprop] at hr
    obtain ⟨⟨n2, c2, hrf⟩, hrfid⟩ := refresh_spread_effects
      ({ S.1.write_event U.event with arena := arena3 }) S.2.status U.event odds_feed
    generalize hS2 : ({ S.1.write_event U.event with arena := arena3 } : Bracket).refresh_spread
        S.2.status U.event odds_feed = S2 at hr hrf hrfid
    subst hr
    refine ⟨n2, c2, set_event S2.1.arena S2.2, ?_, ?_, ?_⟩
    · show S2.1.write_event S2.2 = _
      rw [write_event_arena, hrf, write_event_arena, hS1]
    · intro k hk
      show (get_event (set_event S2.1.arena S2.2) k).map Event.is_complete = _
      rw [find?_set_event_ne _ _ _ (by rw [hrfid, hUid]; exact hk.symm)]
      rw [hrf]
      show (get_event arena3 k).map Event.is_complete = _
      rw [hpropc k]
      rw [write_event_arena]
      show (get_event (set_event S.1.arena U.event) k).map Event.is_complete = _
      exact congrArg (Option.map Event.is_complete) (hAne k hk)
    · intro hsome
      refine ⟨?_, ?_⟩
      · show get_event (set_event S2.1.arena S2.2) ev0.event_id = some S2.2
        apply get_set_event_self
        · rw [hrf]
          show (get_event arena3 ev0.event_id).isSome = true
          rw [hprops]
          rw [write_event_arena]
          show (get_event (set_event S.1.arena U.event) ev0.event_id).isSome = true
          rw [hAsome]
          exact hsome
        · rw [hrfid, hUid]
      · rw [hrfid, hUid]

theorem process_event_effects (b : Bracket) (odds_feed : List OddsGame)
    (data : List ((String × String) × FeedRecord)) (eid : Nat) :
    ∀ r, b.process_event odds_feed data eid = r →
      ∃ n cache arena2,
        (match r with | .ok (b1, _) => b1 | .error b1 => b1)
          = { b with calls_to_odds_api := n, matchup_to_spread := cache, arena := arena2 } ∧
        (∀ k, k ≠ eid →
          (get_event arena2 k).map Event.is_complete
            = (get_event b.arena k).map Event.is_complete) ∧
        (match r with
         | .ok (_, c) => c = true → (get_event arena2 eid).map Event.is_complete = some true
         | .error _ => True) := by
  intro r hr
  unfold Bracket.process_event at hr
  rcases hev0 : get_event b.arena eid with _ | ev0 <;> rw [hev0] at hr
  · simp only [] at hr
    subst hr
    exact ⟨b.calls_to_odds_api, b.matchup_to_spread, b.arena, rfl, fun k _ => rfl,
      fun h => nomatch h⟩
  · have hid0 : ev0.event_id = eid := get_event_id _ _ _ hev0
    simp only [] at hr
    rcases hro : (match ev0.matchup_tuple with
      | some t => if ev0.matchup_determined = true then assoc_find data t else none
      | none => none) with _ | d <;> rw [hro] at hr <;> simp only [] at hr
    · subst hr
      refine ⟨b.calls_to_odds_api, b.matchup_to_spread, b.arena, rfl, fun k _ => rfl, ?_⟩
      intro hc
      rw [hev0]
      simp [hc]
    · rcases hres : b.resolve_event odds_feed ev0 d with b2 | ⟨b4, ev2⟩ <;>
        rw [hres] at hr <;> simp only [] at hr <;> subst hr
      · obtain ⟨n, cache, a2, hsh, hne, _⟩ := resolve_event_effects b odds_feed ev0 d _ hres
        exact ⟨n, cache, a2, hsh, fun k hk => hne k (by rw [hid0]; exact hk), trivial⟩
      · obtain ⟨n, cache, a2, hsh, hne, hown⟩ := resolve_event_effects b odds_feed ev0 d _ hres
        refine ⟨n, cache, a2, hsh, fun k hk => hne k (by rw [hid0]; exact hk), ?_⟩
        intro hc
        have hsome : (get_event b.arena ev0.event_id).isSome = true := by
          rw [hid0, hev0]
          rfl
        obtain ⟨hget, _⟩ := hown hsome
        rw [← hid0, hget]
        simp [hc]

theorem poll_pass_effects (odds_feed : List OddsGame)
    (data : List ((String × String) × FeedRecord)) :
    ∀ (frontier to_remove : List Nat) (b : Bracket),
      ∃ n cache arena2,
        (Bracket.poll_pass odds_feed data b frontier to_remove).1
          = { b with calls_to_odds_api := n, matchup_to_spread := cache, arena := arena2 } ∧
        (∀ k, k ∉ frontier →
          (get_event arena2 k).map Event.is_complete
            = (get_event b.arena k).map Event.is_complete)
  | [], to_remove, b =>
      ⟨b.calls_to_odds_api, b.matchup_to_spread, b.arena, rfl, fun k _ => rfl⟩
  | eid :: rest, to_remove, b => by
      unfold Bracket.poll_pass
      rcases hpe : b.process_event odds_feed data eid with b1 | ⟨b1, c⟩ <;>
        simp only []
      · obtain ⟨n, cache, a2, hsh, hne, _⟩ := process_event_effects b odds_feed data eid _ hpe
        simp only [] at hsh
        refine ⟨n, cache, a2, hsh, ?_⟩
        intro k hk
        exact hne k (fun h => hk (by rw [h]; exact List.mem_cons_self eid rest))
      · obtain ⟨n, cache, a2, hsh, hne, _⟩ := process_event_effects b odds_feed data eid _ hpe
        simp only [] at hsh
        obtain ⟨n2, cache2, a3, hsh2, hne2⟩ := poll_pass_effects odds_feed data rest
          (if c = true then to_remove ++ [eid] else to_remove) b1
        refine ⟨n2, cache2, a3, ?_, ?_⟩
        · rw [hsh2, hsh]
        · intro k hk
          have hk1 : k ≠ eid := fun h => hk (by rw [h]; exact List.mem_cons_self eid rest)
          have hk2 : k ∉ rest := fun h => hk (List.mem_cons_of_mem eid h)
          rw [hne2 k hk2]
          have hb1a : b1.arena = a2 := by rw [hsh]
          rw [hb1a]
          exact hne k hk1

theorem poll_pass_removed (odds_feed : List OddsGame)
    (data : List ((String × String) × FeedRecord)) :
    ∀ (frontier to_remove : List Nat) (b : Bracket),
      (∀ eid ∈ to_remove, eid ∉ frontier) →
      (∀ eid ∈ to_remove,
        (get_event b.arena eid).map Event.is_complete = some true) →
      frontier.Nodup →
      (∀ eid ∈ (Bracket.poll_pass odds_feed data b frontier to_remove).2.1,
        (get_event (Bracket.poll_pass odds_feed data b frontier to_remove).1.arena eid).map
          Event.is_complete = some true) ∧
      (∀ eid ∈ (Bracket.poll_pass odds_feed data b frontier to_remove).2.1,
        eid ∈ to_remove ∨ eid ∈ frontier)
  | [], to_remove, b, hnd, hpre, hfr => ⟨hpre, fun eid h => Or.inl h⟩
  | eid0 :: rest, to_remove, b, hnd, hpre, hfr => by
      unfold Bracket.poll_pass
      rcases hpe : b.process_event odds_feed data eid0 with b1 | ⟨b1, c⟩ <;>
        simp only []
      · obtain ⟨n, cache, a2, hsh, hne, _⟩ := process_event_effects b odds_feed data eid0 _ hpe
        simp only [] at hsh
        constructor
        · intro e he
          have hne0 : e ≠ eid0 := fun h => (hnd e he) (by rw [h]; exact List.mem_cons_self _ _)
          have hb1a : b1.arena = a2 := by rw [hsh]
          rw [hb1a, hne e hne0]
          exact hpre e he
        · exact fun e he => Or.inl he
      · obtain ⟨n, cache, a2, hsh, hne, hcm⟩ := process_event_effects b odds_feed data eid0 _ hpe
        simp only [] at hsh hcm
        have hb1a : b1.arena = a2 := by rw [hsh]
        have hnd2 : ∀ e ∈ (if c = true then to_remove ++ [eid0] else to_remove), e ∉ rest := by
          intro e he
          split at he
          · rcases List.mem_append.mp he with h | h
            · exact fun hm => (hnd e h) (List.mem_cons_of_mem _ hm)
            · have : e = eid0 := by simpa using h
              subst this
              exact (List.nodup_cons.mp hfr).1
          · exact fun hm => (hnd e he) (List.mem_cons_of_mem _ hm)
        have hpre2 : ∀ e ∈ (if c = true then to_remove ++ [eid0] else to_remove),
            (get_event b1.arena e).map Event.is_complete = some true := by
          intro e he
          split at he
          · rcases List.mem_append.mp he with h | h
            · have hne0 : e ≠ eid0 := fun hh => (hnd e h) (by rw [hh]; exact List.mem_cons_self _ _)
              rw [hb1a, hne e hne0]
              exact hpre e h
            · have : e = eid0 := by simpa using h
              subst this
              rw [hb1a]
              exact hcm (by assumption)
          · have hne0 : e ≠ eid0 := fun hh => (hnd e he) (by rw [hh]; exact List.mem_cons_self _ _)
            rw [hb1a, hne e hne0]
            exact hpre e he
        obtain ⟨ih1, ih2⟩ := poll_pass_removed odds_feed data rest
          (if c = true then to_remove ++ [eid0] else to_remove) b1 hnd2 hpre2
          (List.nodup_cons.mp hfr).2
        constructor
        · exact ih1
        · intro e he
          rcases ih2 e he with h | h
          · split at h
            · rcases List.mem_append.mp h with h2 | h2
              · exact Or.inl h2
              · exact Or.inr (by simp at h2; rw [h2]; exact List.mem_cons_self _ _)
            · exact Or.inl h
          · exact Or.inr (List.mem_cons_of_mem _ h)


theorem mem_foldl_erase : ∀ (rem l2 : List Nat) (k : Nat),
    k ∈ rem.foldl (fun fr eid => fr.erase eid) l2 → k ∈ l2
  | [], _, _, h => h
  | _ :: rest, l, k, h => List.mem_of_mem_erase (mem_foldl_erase rest _ k h)

/-- C5: a raised fetch (or a failed preprocessing assertion) abandons the
iteration with the bracket state untouched except the health flag dropping
to false (the frontier count in particular is unchanged); a per-event
exception mid-pass commits exactly the removals already marked before the
exception — each marked event was complete and came from the frontier —
and drops the flag; a fully successful pass sets the flag back to true.
The iteration is a total function into a new state, so the loop always
proceeds to its next interval. -/
theorem c5_failure_isolation (b : Bracket) (batch : List RawEvent)
    (data : List ((String × String) × FeedRecord)) (b2 : Bracket) (rem : List Nat)
    (ok : Bool) (odds_feed : List OddsGame) (now : Int)
    (hnd : b.events_to_process.Nodup)
    (hdata : get_score_data batch = .ok data)
    (hpass : Bracket.poll_pass odds_feed data b b.events_to_process [] = (b2, rem, ok)) :
    (b.process_iteration none odds_feed now
      = { b with successfully_updating := false, last_attempted_update := some now }) ∧
    (ok = false →
      b.process_iteration (some batch) odds_feed now
        = { b2 with
              successfully_updating := false,
              events_to_process := rem.foldl (fun fr eid => fr.erase eid) b2.events_to_process,
              last_attempted_update := some now }) ∧
    (ok = true →
      b.process_iteration (some batch) odds_feed now
        = { b2 with
              calls_to_espn := b2.calls_to_espn + 1, successfully_updating := true,
              last_successful_update := some now,
              events_to_process := rem.foldl (fun fr eid => fr.erase eid) b2.events_to_process,
              last_attempted_update := some now }) ∧
    (∀ eid ∈ rem, (get_event b2.arena eid).map Event.is_complete = some true
        ∧ eid ∈ b.events_to_process) ∧
    b2.events_to_process = b.events_to_process := by
  have hrm := poll_pass_removed odds_feed data b.events_to_process [] b
    (by intro e h; cases h) (by intro e h; cases h) hnd
  rw [hpass] at hrm
  simp only [] at hrm
  obtain ⟨n, cache, a2, hsh, _⟩ := poll_pass_effects odds_feed data b.events_to_process [] b
  rw [hpass] at hsh
  simp only [] at hsh
  refine ⟨rfl, ?_, ?_, ?_, ?_⟩
  · intro hok
    unfold Bracket.process_iteration
    simp only []
    rw [hdata]
    simp only [hpass, hok]
    rfl
  · intro hok
    unfold Bracket.process_iteration
    simp only []
    rw [hdata]
    simp only [hpass, hok]
    rfl
  · intro eid he
    exact ⟨hrm.1 eid he, (hrm.2 eid he).resolve_left (fun h => nomatch h)⟩
  · rw [hsh]

/-- C5 witness: a fetch failure leaves bracket4 untouched except the flag,
and the crashing pass (event 1 completes but its winner determination
faults for lack of a spread) commits no removals and drops the flag. -/
theorem c5_failure_isolation_witness :
    bracket4.process_iteration none [] 0
      = { bracket4 with successfully_updating := false, last_attempted_update := some 0 } ∧
    (c5pass.2.2 = false →
      bracket4.process_iteration (some [recAB]) [] 0
        = { c5pass.1 with
              successfully_updating := false,
              events_to_process := c5pass.2.1.foldl (fun fr eid => fr.erase eid)
                c5pass.1.events_to_process,
              last_attempted_update := some 0 }) ∧
    c5pass.2.2 = false := by
  have h := c5_failure_isolation bracket4 [recAB] [(("AAA", "BBB"), recAB.payload)]
    c5pass.1 c5pass.2.1 c5pass.2.2 [] 0 (by with_unfolding_all decide)
    (by with_unfolding_all rfl) rfl
  exact ⟨h.1, fun hok => h.2.1 hok, by with_unfolding_all decide⟩

/-- C7 counterexample: with no odds line available, the completing record
for event 1 sets is_complete but the winner determination faults, so the
event stays on the frontier; the next iteration applies a record with the
completed flag false and is_complete reverts from true to false. -/
theorem c7_counterexample :
    ((get_event (bracket4.process_iteration (some [recAB]) [] 0).arena 1).map Event.is_complete
        = some true) ∧
    (1 ∈ (bracket4.process_iteration (some [recAB]) [] 0).events_to_process) ∧
    ((get_event ((bracket4.process_iteration (some [recAB]) [] 0).process_iteration
          (some [recAB_progress]) [] 1).arena 1).map Event.is_complete = some false) :=
  ⟨by with_unfolding_all decide, by with_unfolding_all decide, by with_unfolding_all decide⟩

/-- An event that is complete and no longer on the frontier keeps both
properties across one live iteration. -/
theorem process_iteration_complete_stays (b : Bracket) (fetch : Option (List RawEvent))
    (odds_feed : List OddsGame) (now : Int) (k : Nat)
    (hcomp : (get_event b.arena k).map Event.is_complete = some true)
    (hfr : k ∉ b.events_to_process) :
    (get_event (b.process_iteration fetch odds_feed now).arena k).map Event.is_complete
        = some true ∧
    k ∉ (b.process_iteration fetch odds_feed now).events_to_process := by
  unfold Bracket.process_iteration
  rcases fetch with _ | batch
  · exact ⟨hcomp, hfr⟩
  · rcases hgs : get_score_data batch with e | data
    · simp only [hgs]
      exact ⟨hcomp, hfr⟩
    · simp only [hgs]
      obtain ⟨n, cache, a2, hsh, hne⟩ := poll_pass_effects odds_feed data b.events_to_process [] b
      generalize hpr : Bracket.poll_pass odds_feed data b b.events_to_process [] = pres at hsh ⊢
      by_cases hok : pres.2.2 = true
      · simp only [hok, if_pos]
        constructor
        · show (get_event pres.1.arena k).map Event.is_complete = some true
          rw [hsh]
          show (get_event a2 k).map Event.is_complete = some true
          rw [hne k hfr]
          exact hcomp
        · show k ∉ pres.2.1.foldl (fun fr eid => fr.erase eid) pres.1.events_to_process
          rw [hsh]
          show k ∉ pres.2.1.foldl (fun fr eid => fr.erase eid) b.events_to_process
          exact fun hm => hfr (mem_foldl_erase _ _ _ hm)
      · simp only [hok, if_neg]
        constructor
        · show (get_event pres.1.arena k).map Event.is_complete = some true
          rw [hsh]
          show (get_event a2 k).map Event.is_complete = some true
          rw [hne k hfr]
          exact hcomp
        · show k ∉ pres.2.1.foldl (fun fr eid => fr.erase eid) pres.1.events_to_process
          rw [hsh]
          show k ∉ pres.2.1.foldl (fun fr eid => fr.erase eid) b.events_to_process
          exact fun hm => hfr (mem_foldl_erase _ _ _ hm)

/-- C7 amended: is_complete is monotonic for events that have left the
frontier — from any state in which an Event is complete and no longer in
events_to_process, every sequence of live-loop iterations keeps it complete
(and out of the frontier).  An Event whose completing update raised an
exception stays on the frontier instead, and a later feed record reporting
the matchup as not completed reverts its flag there, as the counterexample
shows. -/
theorem c7_amended_monotonic (b : Bracket)
    (steps : List (Option (List RawEvent) × List OddsGame × Int)) (k : Nat)
    (hcomp : (get_event b.arena k).map Event.is_complete = some true)
    (hfr : k ∉ b.events_to_process) :
    (get_event (b.run_polls steps).arena k).map Event.is_complete = some true ∧
    k ∉ (b.run_polls steps).events_to_process := by
  induction steps generalizing b with
  | nil => exact ⟨hcomp, hfr⟩
  | cons st rest ih =>
      rcases st with ⟨fetch, odds_feed, now⟩
      obtain ⟨h1, h2⟩ := process_iteration_complete_stays b fetch odds_feed now k hcomp hfr
      exact ih _ h1 h2

/-- C7 amended witness: after a clean iteration completes and removes event
1, a further iteration that even reports the matchup as not completed
leaves it complete and off the frontier. -/
theorem c7_amended_monotonic_witness :
    ((get_event (bracket4.process_iteration (some [recAB]) odds9 0).arena 1).map
        Event.is_complete = some true ∧
      1 ∉ (bracket4.process_iteration (some [recAB]) odds9 0).events_to_process) ∧
    ((get_event ((bracket4.process_iteration (some [recAB]) odds9 0).run_polls
        [(some [recAB_progress], odds9, 1)]).arena 1).map Event.is_complete = some true ∧
      1 ∉ ((bracket4.process_iteration (some [recAB]) odds9 0).run_polls
        [(some [recAB_progress], odds9, 1)]).events_to_process) :=
  ⟨⟨by with_unfolding_all decide, by with_unfolding_all decide⟩,
   c7_amended_monotonic _ _ 1 (by with_unfolding_all decide) (by with_unfolding_all decide)⟩


theorem assoc_find_none_not_mem {α : Type} (l : List ((String × String) × α))
    (k : String × String) (h : ¬ (assoc_find l k).isSome = true) :
    k ∉ l.map Prod.fst := by
  intro hm
  apply h
  unfold assoc_find
  rw [Option.isSome_map', List.find?_isSome]
  obtain ⟨x, hx, hfst⟩ := List.mem_map.mp hm
  exact ⟨x, hx, by simpa using hfst⟩

/-- Whenever the dict-building loop of get_score_data succeeds, the non-TBD
keys of the batch (together with the accumulator's keys) were all distinct. -/
theorem build_matchup_map_nodup : ∀ (batch : List RawEvent)
    (acc m : List ((String × String) × FeedRecord)),
    (acc.map Prod.fst).Nodup →
    build_matchup_map acc batch = .ok m →
    ((acc.map Prod.fst) ++ (batch.filterMap (fun r =>
        if sortPair r.nameA r.nameB = ("TBD", "TBD") then none
        else some (sortPair r.nameA r.nameB)))).Nodup
  | [], acc, m, hacc, _ => by simpa using hacc
  | r :: rest, acc, m, hacc, h => by
      unfold build_matchup_map at h
      simp only [] at h
      by_cases htbd : sortPair r.nameA r.nameB = ("TBD", "TBD")
      · rw [if_pos htbd] at h
        have ih := build_matchup_map_nodup rest acc m hacc h
        simpa [htbd] using ih
      · rw [if_neg htbd] at h
        by_cases hdup : (assoc_find acc (sortPair r.nameA r.nameB)).isSome = true
        · rw [if_pos hdup] at h
          cases h
        · rw [if_neg hdup] at h
          have hnm := assoc_find_none_not_mem acc (sortPair r.nameA r.nameB) hdup
          have hacc2 : (((acc ++ [(sortPair r.nameA r.nameB, r.payload)]).map Prod.fst)).Nodup := by
            rw [List.map_append]
            simp only [List.map_cons, List.map_nil]
            rw [List.nodup_append]
            exact ⟨hacc, List.nodup_singleton _, by simpa using hnm⟩
          have ih := build_matchup_map_nodup rest _ m hacc2 h
          rw [List.map_append] at ih
          simp only [List.map_cons, List.map_nil] at ih
          rw [List.append_assoc] at ih
          simpa [htbd] using ih

/-- C8 amended: two records resolving to the same unordered (non-TBD) team
pair fail the duplicate-matchup assertion inside get_score_data, which sits
inside the iteration's try block: the WHOLE poll pass is abandoned — no
record of the batch is applied to any event and no removal is committed —
the health flag drops, last_attempted is stamped, and the loop proceeds to
the next interval.  The fault is not local to the duplicated record. -/
theorem c8_amended_duplicate_aborts (b : Bracket) (batch : List RawEvent)
    (odds_feed : List OddsGame) (now : Int)
    (hdup : ¬ (batch.filterMap (fun r =>
        if sortPair r.nameA r.nameB = ("TBD", "TBD") then none
        else some (sortPair r.nameA r.nameB))).Nodup) :
    (∃ er, get_score_data batch = .error er) ∧
    b.process_iteration (some batch) odds_feed now
      = { b with successfully_updating := false, last_attempted_update := some now } := by
  have hgs : ∃ er, get_score_data batch = .error er := by
    rcases hr : get_score_data batch with er | m
    · exact ⟨er, rfl⟩
    · exfalso
      unfold get_score_data at hr
      have hnd := build_matchup_map_nodup batch [] m (by simp) hr
      simp only [List.map_nil, List.nil_append] at hnd
      exact hdup hnd
  obtain ⟨er, he⟩ := hgs
  refine ⟨⟨er, he⟩, ?_⟩
  unfold Bracket.process_iteration
  simp only []
  rw [he]
  rfl

/-- C8 amended witness: the duplicated Gamma-Delta batch makes
get_score_data fail its assertion and the iteration leaves bracket4
untouched except for the dropped flag. -/
theorem c8_amended_duplicate_aborts_witness :
    (¬ (([recAB, recCD, recCD] : List RawEvent).filterMap (fun r =>
        if sortPair r.nameA r.nameB = ("TBD", "TBD") then none
        else some (sortPair r.nameA r.nameB))).Nodup) ∧
    (∃ er, get_score_data [recAB, recCD, recCD] = .error er) ∧
    bracket4.process_iteration (some [recAB, recCD, recCD]) odds9 0
      = { bracket4 with successfully_updating := false, last_attempted_update := some 0 } :=
  ⟨by with_unfolding_all decide,
   c8_amended_duplicate_aborts bracket4 [recAB, recCD, recCD] odds9 0
     (by with_unfolding_all decide)⟩

/-- C8 counterexample: the claim says a duplicate matchup key is skipped
locally and does not abort the pass for the remaining events.  On the code,
a batch holding the Gamma-Delta record twice aborts the whole pass: the
independent completing Alpha-Beta record is NOT applied (event 1 stays
incomplete and the frontier is untouched, flag down), whereas the very same
Alpha-Beta record alone completes event 1. -/
theorem c8_counterexample :
    (get_event (bracket4.process_iteration (some [recAB, recCD, recCD]) odds9 0).arena 1).map
        Event.is_complete = some false ∧
    (bracket4.process_iteration (some [recAB, recCD, recCD]) odds9 0).events_to_process
        = bracket4.events_to_process ∧
    (bracket4.process_iteration (some [recAB, recCD, recCD]) odds9 0).successfully_updating
        = false ∧
    (get_event (bracket4.process_iteration (some [recAB]) odds9 0).arena 1).map
        Event.is_complete = some true :=
  ⟨by with_unfolding_all decide, by with_unfolding_all decide, by with_unfolding_all decide,
   by with_unfolding_all decide⟩

/-- C9: the one-shot backfill is NOT state-equivalent to one pass of the
live loop on batches that complete the root.  On the 4-participant bracket
with a batch concluding all three games, pre_populate_events reads
event._parent.matchup_determined on the parentless root (line 472, no None
guard — an AttributeError) right after completing it and aborts, while the
same batch through one live-loop iteration (whose propagation guards the
absent parent, lines 144-145) completes the root, empties the frontier and
reports success.  The TODO at line 433 records the intent to reuse
process_indefinitely for the backfill. -/
theorem c9_backfill_root_crash :
    is_parent_fault (bracket4.pre_populate_events batch9 odds9 20) = true ∧
    (bracket4.process_iteration (some batch9) odds9 0).events_to_process = [] ∧
    (bracket4.process_iteration (some batch9) odds9 0).successfully_updating = true ∧
    (get_event (bracket4.process_iteration (some batch9) odds9 0).arena 3).map
        Event.is_complete = some true ∧
    (get_event (bracket4.process_iteration (some batch9) odds9 0).arena 3).map
        (fun e => e.winning_participant.map (fun p => p.name)) = some (some "Ann") :=
  ⟨by with_unfolding_all decide, by with_unfolding_all decide, by with_unfolding_all decide,
   by with_unfolding_all decide, by with_unfolding_all decide⟩


/-- C6: with caching enabled, a cache hit returns the cached mapping
unchanged, issues no odds query (the odds counter does not move) and never
overwrites the cache; a miss that resolves non-None writes the pair into
the cache so that any second resolution of the same matchup is a hit
returning the identical value with no second query; and a None resolution
is never written into the cache. -/
theorem c6_spread_cache (b : Bracket) (e e2 : Event)
    (feed feed2 : List OddsGame) (t : String × String)
    (hc : b.cache_spread = true) (ht : e.matchup_tuple = some t) :
    (∀ s, b.cache_lookup t = some s →
       (b.set_event_spread e feed).2.spread = some s ∧
       (b.set_event_spread e feed).1.calls_to_odds_api = b.calls_to_odds_api ∧
       (b.set_event_spread e feed).1.matchup_to_spread = b.matchup_to_spread) ∧
    (b.cache_lookup t = none →
       (∀ s, (b.set_event_spread e feed).2.spread = some s →
          (b.set_event_spread e feed).1.cache_lookup t = some s ∧
          (e2.matchup_tuple = some t →
            ((b.set_event_spread e feed).1.set_event_spread e2 feed2).2.spread = some s ∧
            ((b.set_event_spread e feed).1.set_event_spread e2 feed2).1.calls_to_odds_api
              = (b.set_event_spread e feed).1.calls_to_odds_api)) ∧
       ((b.set_event_spread e feed).2.spread = none →
          (b.set_event_spread e feed).1.matchup_to_spread = b.matchup_to_spread)) := by
  constructor
  · intro s hs
    obtain ⟨h1, h2, h3, _⟩ := set_event_spread_hit b e feed t s hc ht hs
    exact ⟨h1, h2, h3⟩
  · intro hm
    obtain ⟨hcaches, hnone, hflag⟩ := set_event_spread_miss b e feed t hc ht hm
    refine ⟨?_, hnone⟩
    intro s hs
    have hcached := hcaches s hs
    refine ⟨hcached, ?_⟩
    intro ht2
    obtain ⟨g1, g2, _, _⟩ :=
      set_event_spread_hit (b.set_event_spread e feed).1 e2 feed2 t s hflag ht2 hcached
    exact ⟨g1, g2⟩

/-- C6 witness: on the empty cache, resolving Alpha-Beta queries the feed,
caches the -5 line, and a second resolution of the same matchup returns the
identical mapping with the odds counter unmoved. -/
theorem c6_spread_cache_witness :
    (bracket4.set_event_spread eventC4 odds9).2.spread
        = some [("Alpha U", -5), ("Beta U", 5)] ∧
    (bracket4.set_event_spread eventC4 odds9).1.cache_lookup ("AAA", "BBB")
        = some [("Alpha U", -5), ("Beta U", 5)] ∧
    ((bracket4.set_event_spread eventC4 odds9).1.set_event_spread eventC4 []).2.spread
        = some [("Alpha U", -5), ("Beta U", 5)] ∧
    ((bracket4.set_event_spread eventC4 odds9).1.set_event_spread eventC4 []).1.calls_to_odds_api
        = (bracket4.set_event_spread eventC4 odds9).1.calls_to_odds_api := by
  have h := (c6_spread_cache bracket4 eventC4 eventC4 odds9 [] ("AAA", "BBB") rfl
    (by with_unfolding_all decide)).2 (by with_unfolding_all decide)
  have hs : (bracket4.set_event_spread eventC4 odds9).2.spread
      = some [("Alpha U", -5), ("Beta U", 5)] := by with_unfolding_all decide
  have h1 := h.1 _ hs
  have h2 := h1.2 (by with_unfolding_all decide)
  exact ⟨hs, h1.1, h2.1, h2.2⟩


end Madness
